import Mathlib

/-!
HAL_SDRAM: register layouts and the controller bring-up sequence.

A shallow embedding of `fw/HAL_SDRAM.h` and `fw/HAL_SDRAM.c`.

* Raw register words (`asData`) are natural numbers; a 32-bit word is a number
  below `2 ^ 32`, a 16-bit word a number below `2 ^ 16`.
* The `asElements` view of each union is a list of bit-field declarations
  (name and width, in declaration order).  Bit-fields are allocated from bit 0
  upward in declaration order, which is the allocation the header documents
  (`Bit 0 to 3`, ...) and the one `HAL_SDRAM.c` relies on (`bit 30`).
* The hardware is an environment that answers reads; every access the routine
  makes in source order is appended to a trace.
* The unbounded `do ... while` poll takes a budget of iterations; running out of
  budget is reported as `Outcome.polling`, never as a return.
-/

namespace HAL_SDRAM

/-! ## Bit-fields -/

/-- Value read from the `width`-bit field at bit offset `off` of the word `w`. -/
def getBits (off width w : Nat) : Nat :=
  w / 2 ^ off % 2 ^ width

/-- Word obtained from `w` by assigning `x` to the `width`-bit field at bit
offset `off`: the stored value is `x` reduced modulo `2 ^ width` and every bit
outside the field keeps its value. -/
def setBits (off width w x : Nat) : Nat :=
  w % 2 ^ off + 2 ^ off * (x % 2 ^ width) + 2 ^ (off + width) * (w / 2 ^ (off + width))

/-- Width of field `f` in a list of bit-field declarations. -/
def declWidth {F : Type} [DecidableEq F] : List (F × Nat) → F → Nat
  | [], _ => 0
  | (g, n) :: rest, f => if g = f then n else declWidth rest f

/-- Bit offset of field `f` in a list of bit-field declarations: the sum of the
widths declared before it. -/
def declOffset {F : Type} [DecidableEq F] : List (F × Nat) → F → Nat
  | [], _ => 0
  | (g, n) :: rest, f => if g = f then 0 else n + declOffset rest f

/-- Read of `asElements.f` from the word `w`. -/
def getField {F : Type} [DecidableEq F] (decl : List (F × Nat)) (f : F) (w : Nat) : Nat :=
  getBits (declOffset decl f) (declWidth decl f) w

/-- Assignment `asElements.f = x` on the word `w`. -/
def setField {F : Type} [DecidableEq F] (decl : List (F × Nat)) (f : F) (w x : Nat) : Nat :=
  setBits (declOffset decl f) (declWidth decl f) w x

/-- Assignment of every declared field, in declaration order, from the field
values `vals`, starting from the storage content `w`. -/
def packFields {F : Type} [DecidableEq F] (decl : List (F × Nat)) (vals : F → Nat) (w : Nat) : Nat :=
  decl.foldl (fun acc d => setField decl d.1 acc (vals d.1)) w

/-- Every field value fits the declared width of its field. -/
def FieldsFit {F : Type} [DecidableEq F] (decl : List (F × Nat)) (vals : F → Nat) : Prop :=
  ∀ f, vals f < 2 ^ declWidth decl f

/-! ## HAL_SDRAM.h -/

def MODE_REG_NORMAL : Nat := 0

def MODE_REG_PRECHARGE : Nat := 1

def MODE_REG_AUTO_REFRESH : Nat := 2

def MODE_REG_AUTO_SET : Nat := 3

namespace tSDRAMControlRegister

/-- Members of `tSDRAMControlRegister.asElements`. -/
inductive Field
  | wBufTimeout | reserved1 | dqSize | ap | iam | numCols | numRows | burstSize
  | reserved2 | pp | mode | initDone | enable
  deriving DecidableEq, Repr

/-- Bit-field declarations of `tSDRAMControlRegister.asElements`, in order. -/
def decl : List (Field × Nat) :=
  [(.wBufTimeout, 4), (.reserved1, 12), (.dqSize, 2), (.ap, 1), (.iam, 1), (.numCols, 2),
   (.numRows, 2), (.burstSize, 1), (.reserved2, 2), (.pp, 1), (.mode, 2), (.initDone, 1),
   (.enable, 1)]

/-- Read of `asElements.f`. -/
def get (f : Field) (w : Nat) : Nat := getField decl f w

/-- Assignment `asElements.f = x`. -/
def set (f : Field) (w x : Nat) : Nat := setField decl f w x

end tSDRAMControlRegister

namespace tSDRAMTimeConfig

/-- Members of `tSDRAMTimeConfig.asElements`. -/
inductive Field
  | RFC_cnt | RC_cnt | RAS_cnt | RCD_cnt | RP_cnt | WR_cnt | RRD_cnt | cl | unused1 | btac
  | RDV_cnt | unused2
  deriving DecidableEq, Repr

/-- Bit-field declarations of `tSDRAMTimeConfig.asElements`, in order. -/
def decl : List (Field × Nat) :=
  [(.RFC_cnt, 4), (.RC_cnt, 4), (.RAS_cnt, 4), (.RCD_cnt, 3), (.RP_cnt, 3), (.WR_cnt, 3),
   (.RRD_cnt, 3), (.cl, 2), (.unused1, 1), (.btac, 1), (.RDV_cnt, 3), (.unused2, 1)]

/-- Read of `asElements.f`. -/
def get (f : Field) (w : Nat) : Nat := getField decl f w

/-- Assignment `asElements.f = x`. -/
def set (f : Field) (w x : Nat) : Nat := setField decl f w x

end tSDRAMTimeConfig

namespace tSDRAMModeRegister

/-- Members of `tSDRAMModeRegister.asElements`. -/
inductive Field
  | burstLength | burstType | latency | operatingMode | writeBurstMode | reserved
  deriving DecidableEq, Repr

/-- Bit-field declarations of `tSDRAMModeRegister.asElements`, in order. -/
def decl : List (Field × Nat) :=
  [(.burstLength, 3), (.burstType, 1), (.latency, 3), (.operatingMode, 2),
   (.writeBurstMode, 1), (.reserved, 5)]

/-- Read of `asElements.f`. -/
def get (f : Field) (w : Nat) : Nat := getField decl f w

/-- Assignment `asElements.f = x`. -/
def set (f : Field) (w x : Nat) : Nat := setField decl f w x

end tSDRAMModeRegister

/-! ## Hardware accesses -/

/-- One access to the hardware.  The three register events are accesses to the
members of the `HAL_SDRAM_CONTROLLER` block at `sdramBase`; `readData` is a read
of the data region at a byte address.  Reads carry the value the hardware
answered. -/
inductive Access
  | writeTimeConfig (v : Nat)
  | writeTimeRef (v : Nat)
  | readControl (v : Nat)
  | writeControl (v : Nat)
  | readData (addr : Nat) (v : Nat)
  deriving DecidableEq, Repr

/-- The hardware as seen by one run: `control i` is what the `i`-th read of the
control register answers, `data j` what the `j`-th read of the data region
answers (both 0-based). -/
structure Hardware where
  control : Nat → Nat
  data : Nat → Nat

/-- Progress of a run: the accesses made so far, oldest first, and how many
reads of the control register and of the data region have been answered. -/
structure Machine where
  trace : List Access
  controlReads : Nat
  dataReads : Nat
  deriving DecidableEq, Repr

/-- State on entry: nothing accessed yet. -/
def Machine.init : Machine := ⟨[], 0, 0⟩

/-- The statement `sdramBase->timeConfig = v`. -/
def writeTimeConfig (v : Nat) (m : Machine) : Machine :=
  { m with trace := m.trace ++ [Access.writeTimeConfig v] }

/-- The statement `sdramBase->timeRef = v`. -/
def writeTimeRef (v : Nat) (m : Machine) : Machine :=
  { m with trace := m.trace ++ [Access.writeTimeRef v] }

/-- The statement `sdramBase->control = v`. -/
def writeControl (v : Nat) (m : Machine) : Machine :=
  { m with trace := m.trace ++ [Access.writeControl v] }

/-- The expression `sdramBase->control`: a read of the 32-bit control register. -/
def readControl (hw : Hardware) (m : Machine) : Nat × Machine :=
  let v := hw.control m.controlReads % 2 ^ 32
  (v, { m with trace := m.trace ++ [Access.readControl v], controlReads := m.controlReads + 1 })

/-- The expression `*p` for a `uint32_t* p` into the data region, `addr` being
the byte address `p` holds. -/
def readData (hw : Hardware) (addr : Nat) (m : Machine) : Nat × Machine :=
  let v := hw.data m.dataReads % 2 ^ 32
  (v, { m with trace := m.trace ++ [Access.readData addr v], dataReads := m.dataReads + 1 })

/-! ## HAL_SDRAM.c -/

def NUM_DATA_READS_AUTO_REFRESH : Nat := 8

/-- Size in bytes of `uint32_t`, the pointee type of `sdramDataAddress`. -/
def sizeof_uint32_t : Nat := 4

/-- The initialiser `msrValue = (sdramDataAddress + modeRegister.asData)`:
arithmetic on a `uint32_t*` advances the byte address by `sizeof(uint32_t)` per
unit. -/
def msrValue (sdramDataAddress modeRegister : Nat) : Nat :=
  sdramDataAddress + sizeof_uint32_t * modeRegister

/-- The loop `do { controlInfo = sdramBase->control; } while (!controlInfo.asElements.initDone);`
run for at most `fuel` iterations.  `some controlInfo` is the value that ended
the loop; `none` means the budget ran out with the loop still running. -/
def pollInitDone (hw : Hardware) : Nat → Machine → Option Nat × Machine
  | 0, m => (none, m)
  | fuel + 1, m =>
    let (controlInfo, m) := readControl hw m
    if tSDRAMControlRegister.get .initDone controlInfo = 0 then pollInitDone hw fuel m
    else (some controlInfo, m)

/-- The loop `for (uint8_t i = 0; i < NUM_DATA_READS_AUTO_REFRESH; i++) dummyData = *(sdramDataAddress);`
from counter value `i` on. Returns the last value of `dummyData`. -/
def autoRefreshReads (hw : Hardware) (sdramDataAddress : Nat) (i dummyData : Nat)
    (m : Machine) : Nat × Machine :=
  if i < NUM_DATA_READS_AUTO_REFRESH then
    let (dummyData, m) := readData hw sdramDataAddress m
    autoRefreshReads hw sdramDataAddress ((i + 1) % 2 ^ 8) dummyData m
  else (dummyData, m)
termination_by NUM_DATA_READS_AUTO_REFRESH - i
decreasing_by
  simp only [NUM_DATA_READS_AUTO_REFRESH] at *
  omega

/-- How a run ends: the routine returned, or the poll budget ran out while the
routine was still in its poll loop. -/
inductive Outcome
  | returned (m : Machine)
  | polling (m : Machine)
  deriving DecidableEq, Repr

/-- Machine state at the end of the run. -/
def Outcome.machine : Outcome → Machine
  | .returned m => m
  | .polling m => m

/-- Accesses made during the run, oldest first. -/
def Outcome.trace (o : Outcome) : List Access := o.machine.trace

/-- The routine `HAL_SDRAM_initialize`.  `sdramBase` is the register block
behind `hw`; `sdramDataAddress` is the byte address held by the pointer;
`timeConfig`, `controlRegister` and `modeRegister` are the `asData` words of
the unions passed by value.  `fuel` bounds the iterations of the poll loop. -/
def HAL_SDRAM_initialize (hw : Hardware) (fuel : Nat)
    (sdramDataAddress tREFValue timeConfig controlRegister modeRegister : Nat) : Outcome :=
  let msr := msrValue sdramDataAddress modeRegister
  let m := Machine.init
  let m := writeTimeConfig timeConfig m
  let m := writeTimeRef tREFValue m
  match pollInitDone hw fuel m with
  | (none, m) => .polling m
  | (some controlInfo, m) =>
    let controlInfo := tSDRAMControlRegister.set .mode controlInfo MODE_REG_PRECHARGE
    let controlInfo := tSDRAMControlRegister.set .initDone controlInfo 0
    let controlInfo := tSDRAMControlRegister.set .enable controlInfo 1
    let m := writeControl controlInfo m
    let (dummyData, m) := readData hw sdramDataAddress m
    let controlInfo := tSDRAMControlRegister.set .mode controlInfo MODE_REG_AUTO_REFRESH
    let m := writeControl controlInfo m
    let (_dummyData, m) := autoRefreshReads hw sdramDataAddress 0 dummyData m
    let controlInfo := tSDRAMControlRegister.set .mode controlInfo MODE_REG_AUTO_SET
    let m := writeControl controlInfo m
    let (dummyWord, m) := readData hw msr m
    let _dummyWord := dummyWord % 2 ^ 16
    let m := writeControl controlRegister m
    .returned m

/-! ## Vocabulary of the statements -/

/-- Value answered by the `i`-th read of the control register (0-based). -/
def polled (hw : Hardware) (i : Nat) : Nat := hw.control i % 2 ^ 32

/-- The `initDone` field of the `i`-th polled value. -/
def initDoneAt (hw : Hardware) (i : Nat) : Nat :=
  tSDRAMControlRegister.get .initDone (polled hw i)

/-- The first polled value with `initDone` set is the one at position `k`. -/
def FirstInitDone (hw : Hardware) (k : Nat) : Prop :=
  initDoneAt hw k ≠ 0 ∧ ∀ i, i < k → initDoneAt hw i = 0

/-- The `n` consecutive reads of the control register that start with the
`c`-th one. -/
def pollReads (hw : Hardware) (c n : Nat) : List Access :=
  (List.range n).map (fun i => Access.readControl (polled hw (c + i)))

/-- The `n` consecutive reads of the data region at `addr` that start with the
`c`-th one. -/
def dataReadsFrom (hw : Hardware) (addr c n : Nat) : List Access :=
  (List.range n).map (fun j => Access.readData addr (hw.data (c + j) % 2 ^ 32))

/-- The word of the first control write, as composed from the polled value `v`. -/
def prechargeWord (v : Nat) : Nat :=
  tSDRAMControlRegister.set .enable
    (tSDRAMControlRegister.set .initDone
      (tSDRAMControlRegister.set .mode v MODE_REG_PRECHARGE) 0) 1

/-- The word of the second control write. -/
def autoRefreshWord (v : Nat) : Nat :=
  tSDRAMControlRegister.set .mode (prechargeWord v) MODE_REG_AUTO_REFRESH

/-- The word of the third control write. -/
def autoSetWord (v : Nat) : Nat :=
  tSDRAMControlRegister.set .mode (autoRefreshWord v) MODE_REG_AUTO_SET

/-- The trace of a run whose poll ends with the `k`-th polled value. -/
def returnedTrace (hw : Hardware) (k sdramDataAddress tREFValue timeConfig controlRegister
    modeRegister : Nat) : List Access :=
  [Access.writeTimeConfig timeConfig, Access.writeTimeRef tREFValue]
    ++ pollReads hw 0 (k + 1)
    ++ [Access.writeControl (prechargeWord (polled hw k)),
        Access.readData sdramDataAddress (hw.data 0 % 2 ^ 32),
        Access.writeControl (autoRefreshWord (polled hw k))]
    ++ dataReadsFrom hw sdramDataAddress 1 8
    ++ [Access.writeControl (autoSetWord (polled hw k)),
        Access.readData (msrValue sdramDataAddress modeRegister) (hw.data 9 % 2 ^ 32),
        Access.writeControl controlRegister]

/-- The access is a write of the control register. -/
def Access.isControlWrite : Access → Bool
  | .writeControl _ => true
  | _ => false

/-- The access is a read of the control register. -/
def Access.isControlRead : Access → Bool
  | .readControl _ => true
  | _ => false

/-- The access is a read of the data region. -/
def Access.isDataRead : Access → Bool
  | .readData _ _ => true
  | _ => false

/-- The access is a control write whose `mode` field is `MODE_REG_AUTO_SET`. -/
def Access.isAutoSetWrite : Access → Bool
  | .writeControl v => tSDRAMControlRegister.get .mode v == MODE_REG_AUTO_SET
  | _ => false

/-- The accesses that follow the first `MODE_REG_AUTO_SET` control write. -/
def afterAutoSet (t : List Access) : List Access :=
  (t.dropWhile (fun a => !a.isAutoSetWrite)).drop 1

/-- Byte addresses of the data-region reads of a trace, in order. -/
def dataReadAddrs (t : List Access) : List Nat :=
  t.filterMap (fun a => match a with
    | .readData addr _ => some addr
    | _ => none)

/-- A controller whose first two polls answer with `initDone` clear and whose
third poll answers with `initDone` set; every data read answers 0. -/
def scenarioHw : Hardware :=
  ⟨fun i => if i < 2 then 0 else 0x40000000, fun _ => 0⟩

/-- Control word with `dqSize = DQ_SIZE_32`, `numCols = COLUMNS_10`,
`numRows = ROWS_13` and `enable = 1`. -/
def scenarioControl : Nat := 0x80A10000

/-- Mode word with `burstLength = BURST_LENGTH_4` and `latency = LATENCY_MODE_2`. -/
def scenarioMode : Nat := 0x22

/-- Packing field values that fit and unpacking again returns every field; an
assignment to a field is read back from that field; and an assignment to one
field leaves the value read from every other field unchanged. -/
def RoundTrips {F : Type} [DecidableEq F] (decl : List (F × Nat)) : Prop :=
  (∀ (vals : F → Nat) (w : Nat), FieldsFit decl vals →
      ∀ f, getField decl f (packFields decl vals w) = vals f)
  ∧ (∀ (f : F) (w x : Nat), x < 2 ^ declWidth decl f →
      getField decl f (setField decl f w x) = x)
  ∧ (∀ (f g : F) (w x : Nat), f ≠ g →
      getField decl f (setField decl g w x) = getField decl f w)

/-- Field values for the control register: `dqSize = 1`, `numCols = 2`,
`numRows = 2`, `enable = 1`, every other field 0. -/
def scenarioControlFields : tSDRAMControlRegister.Field → Nat
  | .dqSize => 1
  | .numCols => 2
  | .numRows => 2
  | .enable => 1
  | _ => 0

/-- Whether the access is made through a `volatile`-qualified lvalue.  The
members `control`, `timeConfig` and `timeRef` of `HAL_SDRAM_CONTROLLER` are
declared `volatile`.  The data region is read as `*(sdramDataAddress)` and
`*(msrValue)`, and both pointers are declared `uint32_t*`, so these lvalues
have the unqualified type `uint32_t`. -/
def Access.isVolatile : Access → Bool
  | .writeTimeConfig _ => true
  | .writeTimeRef _ => true
  | .readControl _ => true
  | .writeControl _ => true
  | .readData _ _ => false

/-- The access without the value a data-region read answered: which register
or address is accessed, in which direction, and the value written or polled. -/
def Access.request : Access → Access
  | .readData addr _ => .readData addr 0
  | a => a

/-- The macro `GET_HCLK_T_PERIOD(t, clkPeriod)`, that is
`(int)(ceil(t/clkPeriod))`, for operands of type `int`: `t/clkPeriod` is then
the integer division of C, which truncates; its quotient is converted to
`double` for `ceil` and the result converted back to `int`.  Both conversions
are exact on the values of `int`, so the rationals stand for `double` here. -/
def GET_HCLK_T_PERIOD (t clkPeriod : Int) : Int :=
  Int.ceil ((Int.tdiv t clkPeriod : Int) : ℚ)

/-! ## Bit-field lemmas -/

theorem getBits_setBits_same (off width w x : Nat) :
    getBits off width (setBits off width w x) = x % 2 ^ width := by
  unfold getBits setBits
  have h2 : 0 < 2 ^ off := Nat.two_pow_pos _
  have hlt : w % 2 ^ off < 2 ^ off := Nat.mod_lt _ h2
  rw [Nat.pow_add, Nat.mul_assoc, Nat.add_assoc, ← Nat.mul_add, Nat.add_mul_div_left _ _ h2,
    Nat.div_eq_of_lt hlt, Nat.zero_add, Nat.add_mul_mod_self_left, Nat.mod_mod]

theorem setBits_low (off width w x n : Nat) (h : n ≤ off) :
    setBits off width w x % 2 ^ n = w % 2 ^ n := by
  unfold setBits
  obtain ⟨d, rfl⟩ := Nat.exists_eq_add_of_le h
  have e1 : 2 ^ (n + d) * (x % 2 ^ width) = 2 ^ n * (2 ^ d * (x % 2 ^ width)) := by
    rw [Nat.pow_add, Nat.mul_assoc]
  have e2 : 2 ^ (n + d + width) * (w / 2 ^ (n + d + width))
      = 2 ^ n * (2 ^ (d + width) * (w / 2 ^ (n + d + width))) := by
    rw [Nat.add_assoc, Nat.pow_add, Nat.mul_assoc]
  rw [e1, e2, Nat.add_assoc, ← Nat.mul_add, Nat.add_mul_mod_self_left]
  exact Nat.mod_mod_of_dvd _ (Nat.pow_dvd_pow 2 (Nat.le_add_right n d))

theorem setBits_high (off width w x n : Nat) (h : off + width ≤ n) :
    setBits off width w x / 2 ^ n = w / 2 ^ n := by
  unfold setBits
  obtain ⟨d, rfl⟩ := Nat.exists_eq_add_of_le h
  have hp : 0 < 2 ^ (off + width) := Nat.two_pow_pos _
  have hlow : w % 2 ^ off + 2 ^ off * (x % 2 ^ width) < 2 ^ (off + width) := by
    have h1 : w % 2 ^ off < 2 ^ off := Nat.mod_lt _ (Nat.two_pow_pos _)
    have h2 : x % 2 ^ width < 2 ^ width := Nat.mod_lt _ (Nat.two_pow_pos _)
    have h3 : 2 ^ off * (x % 2 ^ width + 1) ≤ 2 ^ off * 2 ^ width := Nat.mul_le_mul_left _ h2
    rw [Nat.pow_add]
    rw [Nat.mul_add, Nat.mul_one] at h3
    omega
  rw [Nat.pow_add (2 : Nat) (off + width) d, ← Nat.div_div_eq_div_mul, ← Nat.div_div_eq_div_mul,
    Nat.add_mul_div_left _ _ hp, Nat.div_eq_of_lt hlow, Nat.zero_add]

theorem getBits_setBits_disjoint (off1 width1 off2 width2 w x : Nat)
    (h : off1 + width1 ≤ off2 ∨ off2 + width2 ≤ off1) :
    getBits off1 width1 (setBits off2 width2 w x) = getBits off1 width1 w := by
  unfold getBits
  rcases h with h | h
  · rw [← Nat.mod_mul_right_div_self, ← Nat.mod_mul_right_div_self, ← Nat.pow_add,
      setBits_low _ _ _ _ _ h]
  · rw [setBits_high _ _ _ _ _ h]

theorem getField_setField_same {F : Type} [DecidableEq F] (decl : List (F × Nat)) (f : F)
    (w x : Nat) :
    getField decl f (setField decl f w x) = x % 2 ^ declWidth decl f :=
  getBits_setBits_same _ _ _ _

theorem getField_setField_ne {F : Type} [DecidableEq F] (decl : List (F × Nat))
    (hdisj : ∀ f g : F, f ≠ g →
      declOffset decl f + declWidth decl f ≤ declOffset decl g
        ∨ declOffset decl g + declWidth decl g ≤ declOffset decl f)
    (f g : F) (w x : Nat) (h : f ≠ g) :
    getField decl f (setField decl g w x) = getField decl f w :=
  getBits_setBits_disjoint _ _ _ _ _ _ (hdisj f g h)

theorem getField_foldl {F : Type} [DecidableEq F] (decl : List (F × Nat))
    (hdisj : ∀ f g : F, f ≠ g →
      declOffset decl f + declWidth decl f ≤ declOffset decl g
        ∨ declOffset decl g + declWidth decl g ≤ declOffset decl f)
    (vals : F → Nat) (f : F) (l : List (F × Nat)) (w : Nat) :
    getField decl f (l.foldl (fun acc d => setField decl d.1 acc (vals d.1)) w)
      = if f ∈ l.map Prod.fst then vals f % 2 ^ declWidth decl f else getField decl f w := by
  induction l generalizing w with
  | nil => simp
  | cons d l ih =>
    rw [List.foldl_cons, ih]
    by_cases hmem : f ∈ l.map Prod.fst
    · simp [hmem]
    · by_cases hfd : f = d.1
      · subst hfd
        simp [getField_setField_same]
      · rw [if_neg hmem, getField_setField_ne decl hdisj f d.1 _ _ hfd]
        simp [hmem, hfd]

theorem roundTrips_of_disjoint {F : Type} [DecidableEq F] (decl : List (F × Nat))
    (hdisj : ∀ f g : F, f ≠ g →
      declOffset decl f + declWidth decl f ≤ declOffset decl g
        ∨ declOffset decl g + declWidth decl g ≤ declOffset decl f)
    (hall : ∀ f : F, f ∈ decl.map Prod.fst) :
    RoundTrips decl := by
  refine ⟨?_, ?_, ?_⟩
  · intro vals w hfit f
    unfold packFields
    rw [getField_foldl decl hdisj vals f decl w, if_pos (hall f), Nat.mod_eq_of_lt (hfit f)]
  · intro f w x hx
    rw [getField_setField_same, Nat.mod_eq_of_lt hx]
  · intro f g w x h
    exact getField_setField_ne decl hdisj f g w x h

theorem control_disjoint (f g : tSDRAMControlRegister.Field) (h : f ≠ g) :
    declOffset tSDRAMControlRegister.decl f + declWidth tSDRAMControlRegister.decl f
        ≤ declOffset tSDRAMControlRegister.decl g
      ∨ declOffset tSDRAMControlRegister.decl g + declWidth tSDRAMControlRegister.decl g
        ≤ declOffset tSDRAMControlRegister.decl f := by
  cases f <;> cases g <;> first | exact absurd rfl h | decide

theorem time_disjoint (f g : tSDRAMTimeConfig.Field) (h : f ≠ g) :
    declOffset tSDRAMTimeConfig.decl f + declWidth tSDRAMTimeConfig.decl f
        ≤ declOffset tSDRAMTimeConfig.decl g
      ∨ declOffset tSDRAMTimeConfig.decl g + declWidth tSDRAMTimeConfig.decl g
        ≤ declOffset tSDRAMTimeConfig.decl f := by
  cases f <;> cases g <;> first | exact absurd rfl h | decide

theorem mode_disjoint (f g : tSDRAMModeRegister.Field) (h : f ≠ g) :
    declOffset tSDRAMModeRegister.decl f + declWidth tSDRAMModeRegister.decl f
        ≤ declOffset tSDRAMModeRegister.decl g
      ∨ declOffset tSDRAMModeRegister.decl g + declWidth tSDRAMModeRegister.decl g
        ≤ declOffset tSDRAMModeRegister.decl f := by
  cases f <;> cases g <;> first | exact absurd rfl h | decide

theorem control_get_set_ne (f g : tSDRAMControlRegister.Field) (w x : Nat) (h : f ≠ g) :
    tSDRAMControlRegister.get f (tSDRAMControlRegister.set g w x)
      = tSDRAMControlRegister.get f w :=
  getField_setField_ne _ control_disjoint f g w x h

/-! ## Control words -/

theorem prechargeWord_eq (v : Nat) (hv : v < 2 ^ 32) :
    prechargeWord v = v % 2 ^ 28 + 0x90000000 := by
  simp [prechargeWord, tSDRAMControlRegister.set, setField, declOffset, declWidth,
    tSDRAMControlRegister.decl, setBits, MODE_REG_PRECHARGE]
  omega

theorem autoRefreshWord_eq (v : Nat) (hv : v < 2 ^ 32) :
    autoRefreshWord v = v % 2 ^ 28 + 0xA0000000 := by
  rw [autoRefreshWord, prechargeWord_eq v hv]
  simp [tSDRAMControlRegister.set, setField, declOffset, declWidth,
    tSDRAMControlRegister.decl, setBits, MODE_REG_AUTO_REFRESH]
  omega

theorem autoSetWord_eq (v : Nat) (hv : v < 2 ^ 32) :
    autoSetWord v = v % 2 ^ 28 + 0xB0000000 := by
  rw [autoSetWord, autoRefreshWord_eq v hv]
  simp [tSDRAMControlRegister.set, setField, declOffset, declWidth,
    tSDRAMControlRegister.decl, setBits, MODE_REG_AUTO_SET]
  omega

theorem polled_lt (hw : Hardware) (i : Nat) : polled hw i < 2 ^ 32 :=
  Nat.mod_lt _ (Nat.two_pow_pos _)

theorem mode_of_word (x M C : Nat) (hM : M < 4) (hC : C = 2 ^ 28 * M + 2 ^ 31) :
    tSDRAMControlRegister.get .mode (x % 2 ^ 28 + C) = M := by
  subst hC
  simp [tSDRAMControlRegister.get, getField, declOffset, declWidth,
    tSDRAMControlRegister.decl, getBits]
  omega

theorem enable_of_word (x C : Nat) (hC : C + 2 ^ 28 ≤ 2 ^ 32) (hC1 : 2 ^ 31 ≤ C) :
    tSDRAMControlRegister.get .enable (x % 2 ^ 28 + C) = 1 := by
  simp [tSDRAMControlRegister.get, getField, declOffset, declWidth,
    tSDRAMControlRegister.decl, getBits]
  omega

theorem initDone_of_word (x M : Nat) (hM : M < 4) :
    tSDRAMControlRegister.get .initDone (x % 2 ^ 28 + (2 ^ 28 * M + 2 ^ 31)) = 0 := by
  simp [tSDRAMControlRegister.get, getField, declOffset, declWidth,
    tSDRAMControlRegister.decl, getBits]
  omega

theorem initDone_bit (v : Nat) (h : tSDRAMControlRegister.get .initDone v ≠ 0) :
    tSDRAMControlRegister.get .initDone v = 1 ∧ Nat.testBit v 30 = true := by
  have e : tSDRAMControlRegister.get .initDone v = v / 2 ^ 30 % 2 := by
    simp [tSDRAMControlRegister.get, getField, declOffset, declWidth,
      tSDRAMControlRegister.decl, getBits]
  rw [e] at h ⊢
  have h1 : v / 2 ^ 30 % 2 = 1 := by omega
  exact ⟨h1, by rw [Nat.testBit_to_div_mod, h1]; rfl⟩

theorem word_and_or (v : Nat) (M : Nat) :
    (v &&& 0x0FFFFFFF) ||| (2 ^ 28 * M) = v % 2 ^ 28 + 2 ^ 28 * M := by
  have h1 : v &&& 0x0FFFFFFF = v % 2 ^ 28 := Nat.and_pow_two_sub_one_eq_mod v 28
  have hlt : v % 2 ^ 28 < 2 ^ 28 := Nat.mod_lt _ (Nat.two_pow_pos _)
  rw [h1, Nat.or_comm, ← Nat.mul_add_lt_is_or hlt M, Nat.add_comm]

theorem precharge_raw (v : Nat) :
    (v &&& 0x0FFFFFFF) ||| 0x90000000 = v % 2 ^ 28 + 0x90000000 := by
  have h := word_and_or v 9
  norm_num at h ⊢
  exact h

theorem high_bits_agree (M N : Nat) (h : M / 4 = N / 4) (j : Nat) :
    Nat.testBit M (j + 2) = Nat.testBit N (j + 2) := by
  rw [Nat.testBit_succ, Nat.testBit_succ, Nat.testBit_succ, Nat.testBit_succ,
    Nat.div_div_eq_div_mul, Nat.div_div_eq_div_mul]
  exact congrArg (fun z => Nat.testBit z j) h

theorem word_bits_agree (x M N : Nat) (hx : x < 2 ^ 28) (h : M / 4 = N / 4) (i : Nat)
    (h28 : i ≠ 28) (h29 : i ≠ 29) :
    Nat.testBit (2 ^ 28 * M + x) i = Nat.testBit (2 ^ 28 * N + x) i := by
  rw [Nat.testBit_mul_pow_two_add M hx, Nat.testBit_mul_pow_two_add N hx]
  by_cases hi : i < 28
  · simp [hi]
  · obtain ⟨j, rfl⟩ : ∃ j, i = j + 30 := ⟨i - 30, by omega⟩
    simp only [hi, if_false]
    have : j + 30 - 28 = j + 2 := by omega
    rw [this]
    exact high_bits_agree M N h j

/-! ## The poll loop and the refresh loop -/

theorem pollReads_succ_left (hw : Hardware) (c n : Nat) :
    pollReads hw c (n + 1) = Access.readControl (polled hw c) :: pollReads hw (c + 1) n := by
  simp only [pollReads, List.range_succ_eq_map, List.map_cons, List.map_map, Nat.add_zero]
  congr 1
  apply List.map_congr_left
  intro i _
  simp only [Function.comp, Nat.succ_eq_add_one]
  congr 2
  omega

theorem pollReads_kind (hw : Hardware) (c n : Nat) (a : Access) (h : a ∈ pollReads hw c n) :
    ∃ v, a = Access.readControl v := by
  simp only [pollReads, List.mem_map] at h
  obtain ⟨i, _, rfl⟩ := h
  exact ⟨_, rfl⟩

theorem pollReads_mem (hw : Hardware) (n i : Nat) (h : i < n) :
    Access.readControl (polled hw i) ∈ pollReads hw 0 n := by
  simp only [pollReads, List.mem_map, List.mem_range]
  exact ⟨i, h, by rw [Nat.zero_add]⟩

theorem pollInitDone_clear (hw : Hardware) (fuel : Nat) (m : Machine)
    (h : ∀ i, i < fuel → initDoneAt hw (m.controlReads + i) = 0) :
    pollInitDone hw fuel m
      = (none, ⟨m.trace ++ pollReads hw m.controlReads fuel, m.controlReads + fuel,
          m.dataReads⟩) := by
  induction fuel generalizing m with
  | zero => simp [pollInitDone, pollReads]
  | succ n ih =>
    have h0 : tSDRAMControlRegister.get .initDone (hw.control m.controlReads % 2 ^ 32) = 0 := by
      simpa [initDoneAt, polled] using h 0 (Nat.succ_pos n)
    have hrest : ∀ i, i < n → initDoneAt hw (m.controlReads + 1 + i) = 0 := by
      intro i hi
      have := h (i + 1) (Nat.succ_lt_succ hi)
      rwa [Nat.add_assoc, Nat.add_comm 1 i]
    rw [pollInitDone]
    simp only [readControl]
    rw [if_pos h0, ih _ hrest, pollReads_succ_left]
    simp [polled, Nat.add_assoc, Nat.add_comm 1 n]

theorem pollInitDone_found (hw : Hardware) (k fuel : Nat) (m : Machine) (hk : k < fuel)
    (hset : initDoneAt hw (m.controlReads + k) ≠ 0)
    (h : ∀ i, i < k → initDoneAt hw (m.controlReads + i) = 0) :
    pollInitDone hw fuel m
      = (some (polled hw (m.controlReads + k)),
         ⟨m.trace ++ pollReads hw m.controlReads (k + 1), m.controlReads + (k + 1),
          m.dataReads⟩) := by
  induction k generalizing m fuel with
  | zero =>
    obtain ⟨n, rfl⟩ : ∃ n, fuel = n + 1 := ⟨fuel - 1, by omega⟩
    have h0 : ¬ tSDRAMControlRegister.get .initDone (hw.control m.controlReads % 2 ^ 32) = 0 := by
      simpa [initDoneAt, polled] using hset
    rw [pollInitDone]
    simp only [readControl]
    rw [if_neg h0]
    simp [pollReads, polled, List.range_succ]
  | succ j ih =>
    obtain ⟨n, rfl⟩ : ∃ n, fuel = n + 1 := ⟨fuel - 1, by omega⟩
    have h0 : tSDRAMControlRegister.get .initDone (hw.control m.controlReads % 2 ^ 32) = 0 := by
      simpa [initDoneAt, polled] using h 0 (Nat.succ_pos j)
    have hrest : ∀ i, i < j → initDoneAt hw (m.controlReads + 1 + i) = 0 := by
      intro i hi
      have := h (i + 1) (Nat.succ_lt_succ hi)
      rwa [Nat.add_assoc, Nat.add_comm 1 i]
    have hset1 : initDoneAt hw (m.controlReads + 1 + j) ≠ 0 := by
      rwa [Nat.add_assoc, Nat.add_comm 1 j]
    rw [pollInitDone]
    simp only [readControl]
    rw [if_pos h0, ih n _ (by omega) hset1 hrest, pollReads_succ_left hw m.controlReads (j + 1)]
    simp [polled, Nat.add_assoc, Nat.add_comm 1 j]
    omega

theorem autoRefreshReads_zero (hw : Hardware) (addr d : Nat) (m : Machine) :
    autoRefreshReads hw addr 0 d m
      = (hw.data (m.dataReads + 7) % 2 ^ 32,
         ⟨m.trace ++ dataReadsFrom hw addr m.dataReads 8, m.controlReads, m.dataReads + 8⟩) := by
  simp [autoRefreshReads, NUM_DATA_READS_AUTO_REFRESH, readData, dataReadsFrom, List.range_succ]

/-! ## The whole routine -/

theorem initialize_returned (hw : Hardware) (k fuel a r t c mr : Nat)
    (hk : k < fuel) (hfirst : FirstInitDone hw k) :
    HAL_SDRAM_initialize hw fuel a r t c mr
      = .returned ⟨returnedTrace hw k a r t c mr, k + 1, 10⟩ := by
  have hp := pollInitDone_found hw k fuel (writeTimeRef r (writeTimeConfig t Machine.init)) hk
    (by simpa [writeTimeRef, writeTimeConfig, Machine.init] using hfirst.1)
    (by simpa [writeTimeRef, writeTimeConfig, Machine.init] using hfirst.2)
  simp only [ HAL_SDRAM_initialize, hp, autoRefreshReads_zero]
  simp [returnedTrace, writeTimeRef, writeTimeConfig, Machine.init, writeControl, readData,
    prechargeWord, autoRefreshWord, autoSetWord]

theorem initialize_polling (hw : Hardware) (fuel a r t c mr : Nat)
    (h : ∀ i, i < fuel → initDoneAt hw i = 0) :
    HAL_SDRAM_initialize hw fuel a r t c mr
      = .polling ⟨[Access.writeTimeConfig t, Access.writeTimeRef r] ++ pollReads hw 0 fuel,
          fuel, 0⟩ := by
  have hp := pollInitDone_clear hw fuel (writeTimeRef r (writeTimeConfig t Machine.init))
    (by simpa [writeTimeRef, writeTimeConfig, Machine.init] using h)
  simp only [ HAL_SDRAM_initialize, hp]
  simp [writeTimeRef, writeTimeConfig, Machine.init]

theorem firstInitDone_or_clear (hw : Hardware) (fuel : Nat) :
    (∃ k, k < fuel ∧ FirstInitDone hw k) ∨ (∀ i, i < fuel → initDoneAt hw i = 0) := by
  induction fuel with
  | zero => exact Or.inr (fun i hi => absurd hi (Nat.not_lt_zero i))
  | succ n ih =>
    rcases ih with ⟨k, hk, hf⟩ | hclear
    · exact Or.inl ⟨k, Nat.lt_succ_of_lt hk, hf⟩
    · by_cases hn : initDoneAt hw n = 0
      · refine Or.inr (fun i hi => ?_)
        rcases Nat.lt_succ_iff_lt_or_eq.mp hi with hlt | rfl
        · exact hclear i hlt
        · exact hn
      · exact Or.inl ⟨n, Nat.lt_succ_self n, hn, hclear⟩

theorem returned_inv (hw : Hardware) (fuel a r t c mr : Nat) (m : Machine)
    (h : HAL_SDRAM_initialize hw fuel a r t c mr = .returned m) :
    ∃ k, k < fuel ∧ FirstInitDone hw k ∧ m = ⟨returnedTrace hw k a r t c mr, k + 1, 10⟩ := by
  rcases firstInitDone_or_clear hw fuel with ⟨k, hk, hf⟩ | hclear
  · rw [initialize_returned hw k fuel a r t c mr hk hf] at h
    exact ⟨k, hk, hf, (Outcome.returned.inj h).symm⟩
  · rw [initialize_polling hw fuel a r t c mr hclear] at h
    exact Outcome.noConfusion h

theorem head_kind (hw : Hardware) (n r t : Nat) (a : Access)
    (h : a ∈ [Access.writeTimeConfig t, Access.writeTimeRef r] ++ pollReads hw 0 n) :
    a = Access.writeTimeConfig t ∨ a = Access.writeTimeRef r ∨ ∃ v, a = Access.readControl v := by
  rcases List.mem_append.mp h with h | h
  · simp only [List.mem_cons, List.mem_singleton, List.not_mem_nil, or_false] at h
    rcases h with h | h
    · exact Or.inl h
    · exact Or.inr (Or.inl h)
  · exact Or.inr (Or.inr (pollReads_kind hw 0 n a h))

/-- Every trace is the two configuration writes, then control reads, then a
tail that is empty unless one of those reads answered with `initDone` set. -/
theorem trace_split (hw : Hardware) (fuel a r t c mr : Nat) :
    ∃ n tail, ( HAL_SDRAM_initialize hw fuel a r t c mr).trace
        = ([Access.writeTimeConfig t, Access.writeTimeRef r] ++ pollReads hw 0 n) ++ tail
      ∧ (tail = [] ∨ ∃ v, Access.readControl v ∈ pollReads hw 0 n
            ∧ tSDRAMControlRegister.get .initDone v ≠ 0) := by
  rcases firstInitDone_or_clear hw fuel with ⟨k, hk, hf⟩ | hclear
  · rw [initialize_returned hw k fuel _ _ _ _ _ hk hf]
    refine ⟨k + 1,
      [Access.writeControl (prechargeWord (polled hw k)),
        Access.readData a (hw.data 0 % 2 ^ 32),
        Access.writeControl (autoRefreshWord (polled hw k))]
      ++ dataReadsFrom hw a 1 8
      ++ [Access.writeControl (autoSetWord (polled hw k)),
        Access.readData (msrValue a mr) (hw.data 9 % 2 ^ 32),
        Access.writeControl c],
      ?_, Or.inr ⟨polled hw k, pollReads_mem hw (k + 1) k (Nat.lt_succ_self k), hf.1⟩⟩
    simp only [Outcome.trace, Outcome.machine, returnedTrace, List.append_assoc]
  · rw [initialize_polling hw fuel _ _ _ _ _ hclear]
    exact ⟨fuel, [], by simp [Outcome.trace, Outcome.machine], Or.inl rfl⟩

theorem scenario_first : FirstInitDone scenarioHw 2 := by
  unfold FirstInitDone
  decide

/-! ## Traces of returned runs -/

theorem dropWhile_append_cons {α : Type} (p : α → Bool) (l1 : List α) (x : α) (l2 : List α)
    (h1 : ∀ a ∈ l1, p a = true) (hx : p x = false) :
    (l1 ++ x :: l2).dropWhile p = x :: l2 := by
  induction l1 with
  | nil => simp [List.dropWhile, hx]
  | cons b l ih =>
    have hb : p b = true := h1 b (List.mem_cons_self b l)
    simp only [List.cons_append, List.dropWhile, hb]
    exact ih (fun a ha => h1 a (List.mem_cons_of_mem b ha))

theorem find_append_cons {α : Type} (p : α → Bool) (l1 : List α) (x : α) (l2 : List α)
    (h1 : ∀ a ∈ l1, p a = false) (hx : p x = true) :
    (l1 ++ x :: l2).find? p = some x := by
  induction l1 with
  | nil => simp [List.find?, hx]
  | cons b l ih =>
    have hb : p b = false := h1 b (List.mem_cons_self b l)
    simp only [List.cons_append, List.find?, hb]
    exact ih (fun a ha => h1 a (List.mem_cons_of_mem b ha))

theorem afterAutoSet_returnedTrace (hw : Hardware) (k a r t c mr : Nat) :
    afterAutoSet (returnedTrace hw k a r t c mr)
      = [Access.readData (msrValue a mr) (hw.data 9 % 2 ^ 32), Access.writeControl c] := by
  have h1 : tSDRAMControlRegister.get .mode (prechargeWord (polled hw k)) = 1 := by
    rw [prechargeWord_eq _ (polled_lt hw k)]
    exact mode_of_word _ 1 _ (by decide) (by norm_num)
  have h2 : tSDRAMControlRegister.get .mode (autoRefreshWord (polled hw k)) = 2 := by
    rw [autoRefreshWord_eq _ (polled_lt hw k)]
    exact mode_of_word _ 2 _ (by decide) (by norm_num)
  have h3 : tSDRAMControlRegister.get .mode (autoSetWord (polled hw k)) = 3 := by
    rw [autoSetWord_eq _ (polled_lt hw k)]
    exact mode_of_word _ 3 _ (by decide) (by norm_num)
  unfold afterAutoSet returnedTrace
  rw [dropWhile_append_cons]
  · rfl
  · intro x hx
    simp only [List.mem_append, List.mem_cons, List.mem_singleton, pollReads, dataReadsFrom,
      List.mem_map, List.not_mem_nil, or_false] at hx
    rcases hx with (((rfl | rfl) | ⟨i, _, rfl⟩) | (rfl | rfl | rfl)) | ⟨j, _, rfl⟩ <;>
      simp [Access.isAutoSetWrite, h1, h2, MODE_REG_AUTO_SET]
  · simp [Access.isAutoSetWrite, h3, MODE_REG_AUTO_SET]

theorem dataReadCount_returnedTrace (hw : Hardware) (k a r t c mr : Nat) :
    ((returnedTrace hw k a r t c mr).filter Access.isDataRead).length = 10 := by
  have hp : (pollReads hw 0 (k + 1)).filter Access.isDataRead = [] := by
    rw [List.filter_eq_nil_iff]
    intro x hx
    simp only [pollReads, List.mem_map] at hx
    obtain ⟨i, _, rfl⟩ := hx
    simp [Access.isDataRead]
  simp [returnedTrace, List.filter_append, hp, dataReadsFrom, List.range_succ, List.filter,
    Access.isDataRead]

theorem firstControlWrite_returnedTrace (hw : Hardware) (k a r t c mr : Nat) :
    (returnedTrace hw k a r t c mr).find? Access.isControlWrite
      = some (Access.writeControl (prechargeWord (polled hw k))) := by
  have hshape : returnedTrace hw k a r t c mr
      = ([Access.writeTimeConfig t, Access.writeTimeRef r] ++ pollReads hw 0 (k + 1))
        ++ Access.writeControl (prechargeWord (polled hw k))
          :: ([Access.readData a (hw.data 0 % 2 ^ 32),
                Access.writeControl (autoRefreshWord (polled hw k))]
              ++ dataReadsFrom hw a 1 8
              ++ [Access.writeControl (autoSetWord (polled hw k)),
                  Access.readData (msrValue a mr) (hw.data 9 % 2 ^ 32),
                  Access.writeControl c]) := by
    simp [returnedTrace]
  rw [hshape, find_append_cons]
  · intro x hx
    rcases head_kind hw (k + 1) r t x hx with rfl | rfl | ⟨v, rfl⟩ <;> rfl
  · rfl

theorem controlWrites_returnedTrace (hw : Hardware) (k a r t c mr : Nat) :
    (returnedTrace hw k a r t c mr).filter Access.isControlWrite
      = [Access.writeControl (prechargeWord (polled hw k)),
         Access.writeControl (autoRefreshWord (polled hw k)),
         Access.writeControl (autoSetWord (polled hw k)),
         Access.writeControl c] := by
  have hp : (pollReads hw 0 (k + 1)).filter Access.isControlWrite = [] := by
    rw [List.filter_eq_nil_iff]
    intro x hx
    obtain ⟨v, rfl⟩ := pollReads_kind hw 0 (k + 1) x hx
    simp [Access.isControlWrite]
  have hd : (dataReadsFrom hw a 1 8).filter Access.isControlWrite = [] := by
    rw [List.filter_eq_nil_iff]
    intro x hx
    simp only [dataReadsFrom, List.mem_map] at hx
    obtain ⟨j, _, rfl⟩ := hx
    simp [Access.isControlWrite]
  simp [returnedTrace, List.filter_append, hp, hd, List.filter, Access.isControlWrite]

/-! ## The claims -/

/-- C1: when the first polled value with `initDone` set is the one at position
`k`, the routine returns for every poll budget above `k`, and its trace is
exactly: write `timeConfig`; write `timeRef`; `k + 1` reads of `control`; write
`control` with `mode = 1`; one read of the data base; write `control` with
`mode = 2`; eight reads of the data base; write `control` with `mode = 3`; one
read at `msrValue`; write `control` with the caller's word. -/
theorem initialize_trace_exact (hw : Hardware)
    (k fuel sdramDataAddress tREFValue timeConfig controlRegister modeRegister : Nat)
    (hk : k < fuel) (hfirst : FirstInitDone hw k) :
    ∃ m, HAL_SDRAM_initialize hw fuel sdramDataAddress tREFValue timeConfig controlRegister
          modeRegister = .returned m
      ∧ m.trace =
          [Access.writeTimeConfig timeConfig, Access.writeTimeRef tREFValue]
          ++ (List.range (k + 1)).map (fun i => Access.readControl (polled hw i))
          ++ [Access.writeControl (polled hw k % 2 ^ 28 + 0x90000000),
              Access.readData sdramDataAddress (hw.data 0 % 2 ^ 32),
              Access.writeControl (polled hw k % 2 ^ 28 + 0xA0000000)]
          ++ (List.range 8).map
              (fun j => Access.readData sdramDataAddress (hw.data (1 + j) % 2 ^ 32))
          ++ [Access.writeControl (polled hw k % 2 ^ 28 + 0xB0000000),
              Access.readData (msrValue sdramDataAddress modeRegister) (hw.data 9 % 2 ^ 32),
              Access.writeControl controlRegister]
      ∧ tSDRAMControlRegister.get .mode (polled hw k % 2 ^ 28 + 0x90000000)
          = MODE_REG_PRECHARGE
      ∧ tSDRAMControlRegister.get .mode (polled hw k % 2 ^ 28 + 0xA0000000)
          = MODE_REG_AUTO_REFRESH
      ∧ tSDRAMControlRegister.get .mode (polled hw k % 2 ^ 28 + 0xB0000000)
          = MODE_REG_AUTO_SET := by
  refine ⟨_, initialize_returned hw k fuel _ _ _ _ _ hk hfirst, ?_, ?_, ?_, ?_⟩
  · simp only [returnedTrace, pollReads, dataReadsFrom, Nat.zero_add,
      prechargeWord_eq _ (polled_lt hw k), autoRefreshWord_eq _ (polled_lt hw k),
      autoSetWord_eq _ (polled_lt hw k)]
  · exact mode_of_word _ 1 _ (by decide) (by norm_num)
  · exact mode_of_word _ 2 _ (by decide) (by norm_num)
  · exact mode_of_word _ 3 _ (by decide) (by norm_num)

/-- C1 on the scenario `timeConfig = 0x00112233`, `tREFValue = 0x07FF`, where
the third poll is the first to answer with `initDone` set. -/
theorem initialize_trace_exact_scenario :
    2 < 3 ∧ FirstInitDone scenarioHw 2 ∧
    ∃ m, HAL_SDRAM_initialize scenarioHw 3 0x80000000 0x07FF 0x00112233 scenarioControl
          scenarioMode = .returned m
      ∧ m.trace =
          [Access.writeTimeConfig 0x00112233, Access.writeTimeRef 0x07FF,
           Access.readControl 0, Access.readControl 0, Access.readControl 0x40000000,
           Access.writeControl 0x90000000,
           Access.readData 0x80000000 0,
           Access.writeControl 0xA0000000,
           Access.readData 0x80000000 0, Access.readData 0x80000000 0,
           Access.readData 0x80000000 0, Access.readData 0x80000000 0,
           Access.readData 0x80000000 0, Access.readData 0x80000000 0,
           Access.readData 0x80000000 0, Access.readData 0x80000000 0,
           Access.writeControl 0xB0000000,
           Access.readData 0x80000088 0,
           Access.writeControl 0x80A10000]
      ∧ tSDRAMControlRegister.get .mode 0x90000000 = 1
      ∧ tSDRAMControlRegister.get .mode 0xA0000000 = 2
      ∧ tSDRAMControlRegister.get .mode 0xB0000000 = 3 :=
  ⟨by decide, scenario_first,
    initialize_trace_exact scenarioHw 2 3 0x80000000 0x07FF 0x00112233 scenarioControl
      scenarioMode (by decide) scenario_first⟩

/-- C2: for every input and every poll budget, the first two accesses are the
write of the caller's `timeConfig` word to the timing-config register and then
the write of the caller's `tREFValue` to the refresh-interval register, both
unchanged, and every write or read of the control register comes after both. -/
theorem initialize_config_writes_first (hw : Hardware)
    (fuel sdramDataAddress tREFValue timeConfig controlRegister modeRegister : Nat) :
    (∃ rest, ( HAL_SDRAM_initialize hw fuel sdramDataAddress tREFValue timeConfig
        controlRegister modeRegister).trace
          = Access.writeTimeConfig timeConfig :: Access.writeTimeRef tREFValue :: rest)
    ∧ ∀ pre a post,
        ( HAL_SDRAM_initialize hw fuel sdramDataAddress tREFValue timeConfig
          controlRegister modeRegister).trace = pre ++ a :: post →
        (a.isControlWrite || a.isControlRead) = true →
        [Access.writeTimeConfig timeConfig, Access.writeTimeRef tREFValue] <+: pre := by
  have hex : ∃ rest, ( HAL_SDRAM_initialize hw fuel sdramDataAddress tREFValue timeConfig
        controlRegister modeRegister).trace
          = Access.writeTimeConfig timeConfig :: Access.writeTimeRef tREFValue :: rest := by
    rcases firstInitDone_or_clear hw fuel with ⟨k, hk, hf⟩ | hclear
    · rw [initialize_returned hw k fuel _ _ _ _ _ hk hf]
      exact ⟨_, by simp [Outcome.trace, Outcome.machine, returnedTrace]; rfl⟩
    · rw [initialize_polling hw fuel _ _ _ _ _ hclear]
      exact ⟨_, by simp [Outcome.trace, Outcome.machine]; rfl⟩
  refine ⟨hex, ?_⟩
  obtain ⟨rest, hrest⟩ := hex
  intro pre a post hsplit ha
  rw [hrest] at hsplit
  match pre, hsplit with
  | [], h =>
    simp only [List.nil_append, List.cons.injEq] at h
    rw [← h.1] at ha
    simp [Access.isControlWrite, Access.isControlRead] at ha
  | [p], h =>
    simp only [List.singleton_append, List.cons.injEq] at h
    rw [← h.2.1] at ha
    simp [Access.isControlWrite, Access.isControlRead] at ha
  | p :: q :: pre2, h =>
    simp only [List.cons_append, List.cons.injEq] at h
    rw [← h.1, ← h.2.1]
    exact ⟨pre2, rfl⟩

/-- C3: whenever the routine returns, its last access is the write of the
caller's `controlRegister` word, unchanged, to the control register. -/
theorem initialize_final_write (hw : Hardware)
    (fuel sdramDataAddress tREFValue timeConfig controlRegister modeRegister : Nat)
    (m : Machine)
    (h : HAL_SDRAM_initialize hw fuel sdramDataAddress tREFValue timeConfig controlRegister
          modeRegister = .returned m) :
    m.trace.getLast? = some (Access.writeControl controlRegister) := by
  obtain ⟨k, _, _, rfl⟩ := returned_inv hw fuel _ _ _ _ _ m h
  show (returnedTrace hw k _ _ _ _ _).getLast? = _
  unfold returnedTrace
  rw [List.getLast?_append_of_ne_nil _ (List.cons_ne_nil _ _)]
  rfl

/-- C3 on the scenario: the run returns and ends with the write of `0x80A10000`. -/
theorem initialize_final_write_scenario :
    ∃ m, HAL_SDRAM_initialize scenarioHw 3 0x80000000 0x07FF 0x00112233 scenarioControl
          scenarioMode = .returned m
      ∧ m.trace.getLast? = some (Access.writeControl 0x80A10000) :=
  ⟨_, initialize_returned scenarioHw 2 3 _ _ _ _ _ (by decide) scenario_first,
    initialize_final_write scenarioHw 3 0x80000000 0x07FF 0x00112233 scenarioControl
      scenarioMode _
      (initialize_returned scenarioHw 2 3 _ _ _ _ _ (by decide) scenario_first)⟩

/-- C4, as stated, fails: with the data base at byte address `0x80000000` and
the mode word `0x22`, the read that follows the AUTO_SET control write is at
byte address `0x80000088`, so its offset from the data base is `0x88`, not the
mode word `0x22`. -/
theorem mode_set_read_offset_scaled :
    ∃ m, HAL_SDRAM_initialize scenarioHw 3 0x80000000 0x07FF 0x00112233 scenarioControl
          scenarioMode = .returned m
      ∧ dataReadAddrs (afterAutoSet m.trace) = [0x80000088]
      ∧ dataReadAddrs (afterAutoSet m.trace) ≠ [0x80000000 + scenarioMode] :=
  ⟨_, initialize_returned scenarioHw 2 3 _ _ _ _ _ (by decide) scenario_first,
    by rw [afterAutoSet_returnedTrace]; decide,
    by rw [afterAutoSet_returnedTrace]; decide⟩

/-- C4, amended: whenever the routine returns, exactly one data-region read
follows the AUTO_SET control write, and its byte address is
`sdramDataAddress + 4 * modeRegister`: the mode word is the offset counted in
32-bit words, and appears shifted left by two bits in the byte address. -/
theorem mode_set_read_address (hw : Hardware)
    (fuel sdramDataAddress tREFValue timeConfig controlRegister modeRegister : Nat)
    (m : Machine)
    (h : HAL_SDRAM_initialize hw fuel sdramDataAddress tREFValue timeConfig controlRegister
          modeRegister = .returned m) :
    dataReadAddrs (afterAutoSet m.trace) = [sdramDataAddress + 4 * modeRegister] := by
  obtain ⟨k, _, _, rfl⟩ := returned_inv hw fuel _ _ _ _ _ m h
  rw [afterAutoSet_returnedTrace]
  rfl

/-- C4, amended, on the scenario: the mode-set read is at `0x80000000 + 4 * 0x22`. -/
theorem mode_set_read_address_scenario :
    ∃ m, HAL_SDRAM_initialize scenarioHw 3 0x80000000 0x07FF 0x00112233 scenarioControl
          scenarioMode = .returned m
      ∧ dataReadAddrs (afterAutoSet m.trace) = [0x80000000 + 4 * 0x22] :=
  ⟨_, initialize_returned scenarioHw 2 3 _ _ _ _ _ (by decide) scenario_first,
    mode_set_read_address scenarioHw 3 0x80000000 0x07FF 0x00112233 scenarioControl
      scenarioMode _
      (initialize_returned scenarioHw 2 3 _ _ _ _ _ (by decide) scenario_first)⟩

/-- C5, as stated, fails: on the scenario the run returns and the number of
data-region reads in its trace is not 9. -/
theorem data_read_count_not_nine :
    ∃ m, HAL_SDRAM_initialize scenarioHw 3 0x80000000 0x07FF 0x00112233 scenarioControl
          scenarioMode = .returned m
      ∧ (m.trace.filter Access.isDataRead).length ≠ 9 :=
  ⟨_, initialize_returned scenarioHw 2 3 _ _ _ _ _ (by decide) scenario_first,
    by rw [dataReadCount_returnedTrace]; decide⟩

/-- C5, amended: whenever the routine returns, exactly 10 reads of the data
region have occurred (one after the PRECHARGE write, eight after the
AUTO_REFRESH write, one after the AUTO_SET write). -/
theorem data_read_count (hw : Hardware)
    (fuel sdramDataAddress tREFValue timeConfig controlRegister modeRegister : Nat)
    (m : Machine)
    (h : HAL_SDRAM_initialize hw fuel sdramDataAddress tREFValue timeConfig controlRegister
          modeRegister = .returned m) :
    (m.trace.filter Access.isDataRead).length = 10 ∧ m.dataReads = 10 := by
  obtain ⟨k, _, _, rfl⟩ := returned_inv hw fuel _ _ _ _ _ m h
  exact ⟨dataReadCount_returnedTrace hw k _ _ _ _ _, rfl⟩

/-- C5, amended, on the scenario: the run returns after 10 data-region reads. -/
theorem data_read_count_scenario :
    ∃ m, HAL_SDRAM_initialize scenarioHw 3 0x80000000 0x07FF 0x00112233 scenarioControl
          scenarioMode = .returned m
      ∧ (m.trace.filter Access.isDataRead).length = 10 ∧ m.dataReads = 10 :=
  ⟨_, initialize_returned scenarioHw 2 3 _ _ _ _ _ (by decide) scenario_first,
    data_read_count scenarioHw 3 0x80000000 0x07FF 0x00112233 scenarioControl
      scenarioMode _
      (initialize_returned scenarioHw 2 3 _ _ _ _ _ (by decide) scenario_first)⟩

/-- C6: in every prefix `p` of the trace of every run (whatever the hardware
answers and whatever the poll budget), a write of the control register or a
read of the data region is preceded by a read of the control register that
answered with `initDone` set (bit 30); and if every control read in `p` answered with
`initDone` clear, `p` holds only the two configuration writes and control
reads. -/
theorem no_command_before_initDone (hw : Hardware)
    (fuel sdramDataAddress tREFValue timeConfig controlRegister modeRegister : Nat)
    (p : List Access)
    (hp : p <+: ( HAL_SDRAM_initialize hw fuel sdramDataAddress tREFValue timeConfig
            controlRegister modeRegister).trace) :
    (∀ pre a post, p = pre ++ a :: post → (a.isControlWrite || a.isDataRead) = true →
        ∃ v, Access.readControl v ∈ pre ∧ tSDRAMControlRegister.get .initDone v = 1
          ∧ Nat.testBit v 30 = true)
    ∧ ((∀ v, Access.readControl v ∈ p → tSDRAMControlRegister.get .initDone v = 0) →
        ∀ a ∈ p, a = Access.writeTimeConfig timeConfig ∨ a = Access.writeTimeRef tREFValue
          ∨ ∃ v, a = Access.readControl v) := by
  obtain ⟨n, tail, htrace, htail⟩ :=
    trace_split hw fuel sdramDataAddress tREFValue timeConfig controlRegister modeRegister
  rw [htrace] at hp
  have key : ∀ pre a post, p = pre ++ a :: post →
      (a = Access.writeTimeConfig timeConfig ∨ a = Access.writeTimeRef tREFValue
          ∨ ∃ v, a = Access.readControl v)
      ∨ ∃ v, Access.readControl v ∈ pre ∧ tSDRAMControlRegister.get .initDone v ≠ 0 := by
    intro pre a post hsplit
    have hpre1 : pre ++ [a] <+: p := ⟨post, by rw [hsplit]; simp⟩
    have hpre : pre <+: p := ⟨a :: post, hsplit.symm⟩
    by_cases hlen : pre.length
        < ([Access.writeTimeConfig timeConfig, Access.writeTimeRef tREFValue]
            ++ pollReads hw 0 n).length
    · have hin : pre ++ [a] <+: [Access.writeTimeConfig timeConfig,
          Access.writeTimeRef tREFValue] ++ pollReads hw 0 n :=
        List.prefix_of_prefix_length_le (hpre1.trans hp) (List.prefix_append _ _)
          (by rw [List.length_append, List.length_singleton]; exact hlen)
      exact Or.inl (head_kind hw n _ _ a (hin.subset (by simp)))
    · have hin : [Access.writeTimeConfig timeConfig, Access.writeTimeRef tREFValue]
          ++ pollReads hw 0 n <+: pre :=
        List.prefix_of_prefix_length_le (List.prefix_append _ _) (hpre.trans hp)
          (Nat.le_of_not_lt hlen)
      rcases htail with rfl | ⟨v, hv, hset⟩
      · have h1 := (hpre1.trans hp).length_le
        rw [List.append_nil] at h1
        rw [List.length_append, List.length_singleton] at h1
        omega
      · exact Or.inr ⟨v, hin.subset (List.mem_append_right _ hv), hset⟩
  constructor
  · intro pre a post hsplit ha
    rcases key pre a post hsplit with (rfl | rfl | ⟨v, rfl⟩) | h
    · simp [Access.isControlWrite, Access.isDataRead] at ha
    · simp [Access.isControlWrite, Access.isDataRead] at ha
    · simp [Access.isControlWrite, Access.isDataRead] at ha
    · obtain ⟨v, hv, hset⟩ := h
      exact ⟨v, hv, initDone_bit v hset⟩
  · intro hclear a ha
    obtain ⟨pre, post, hsplit⟩ := List.append_of_mem ha
    rcases key pre a post hsplit with h | ⟨v, hv, hset⟩
    · exact h
    · exact absurd (hclear v (by rw [hsplit]; exact List.mem_append_left _ hv)) hset

/-- C6 on the scenario, for the prefix that ends with the first control write:
that write comes after the read that answered `0x40000000`. -/
theorem no_command_before_initDone_scenario :
    [Access.writeTimeConfig 0x00112233, Access.writeTimeRef 0x07FF, Access.readControl 0,
      Access.readControl 0, Access.readControl 0x40000000, Access.writeControl 0x90000000]
      <+: ( HAL_SDRAM_initialize scenarioHw 3 0x80000000 0x07FF 0x00112233 scenarioControl
            scenarioMode).trace
    ∧ (∀ pre a post,
        [Access.writeTimeConfig 0x00112233, Access.writeTimeRef 0x07FF, Access.readControl 0,
          Access.readControl 0, Access.readControl 0x40000000, Access.writeControl 0x90000000]
          = pre ++ a :: post →
        (a.isControlWrite || a.isDataRead) = true →
        ∃ v, Access.readControl v ∈ pre ∧ tSDRAMControlRegister.get .initDone v = 1
          ∧ Nat.testBit v 30 = true)
    ∧ ((∀ v, Access.readControl v ∈
          [Access.writeTimeConfig 0x00112233, Access.writeTimeRef 0x07FF, Access.readControl 0,
            Access.readControl 0, Access.readControl 0x40000000, Access.writeControl 0x90000000]
          → tSDRAMControlRegister.get .initDone v = 0) →
        ∀ a ∈ [Access.writeTimeConfig 0x00112233, Access.writeTimeRef 0x07FF,
            Access.readControl 0, Access.readControl 0, Access.readControl 0x40000000,
            Access.writeControl 0x90000000],
          a = Access.writeTimeConfig 0x00112233 ∨ a = Access.writeTimeRef 0x07FF
            ∨ ∃ v, a = Access.readControl v) :=
  have hp : [Access.writeTimeConfig 0x00112233, Access.writeTimeRef 0x07FF,
      Access.readControl 0, Access.readControl 0, Access.readControl 0x40000000,
      Access.writeControl 0x90000000]
      <+: ( HAL_SDRAM_initialize scenarioHw 3 0x80000000 0x07FF 0x00112233 scenarioControl
            scenarioMode).trace := by
    rw [initialize_returned scenarioHw 2 3 _ _ _ _ _ (by decide) scenario_first]
    exact ⟨List.drop 6 (returnedTrace scenarioHw 2 0x80000000 0x07FF 0x00112233
      scenarioControl scenarioMode), by decide⟩
  ⟨hp, no_command_before_initDone scenarioHw 3 0x80000000 0x07FF 0x00112233 scenarioControl
    scenarioMode _ hp⟩

/-- C8: when the poll ends with the value `v` (the `k`-th polled value, the
first with `initDone` set), the first control write of the run carries the
word `(v AND 0x0FFFFFFF) OR 0x90000000`: its `mode` field is 1, its `initDone`
field 0, its `enable` field 1, and every other field reads as in `v`. -/
theorem precharge_write_word (hw : Hardware)
    (k fuel sdramDataAddress tREFValue timeConfig controlRegister modeRegister : Nat)
    (hk : k < fuel) (hfirst : FirstInitDone hw k) :
    ∃ m w, HAL_SDRAM_initialize hw fuel sdramDataAddress tREFValue timeConfig controlRegister
          modeRegister = .returned m
      ∧ m.trace.find? Access.isControlWrite = some (Access.writeControl w)
      ∧ w = (polled hw k &&& 0x0FFFFFFF) ||| 0x90000000
      ∧ tSDRAMControlRegister.get .mode w = MODE_REG_PRECHARGE
      ∧ tSDRAMControlRegister.get .initDone w = 0
      ∧ tSDRAMControlRegister.get .enable w = 1
      ∧ ∀ f, f ≠ .mode → f ≠ .initDone → f ≠ .enable →
          tSDRAMControlRegister.get f w = tSDRAMControlRegister.get f (polled hw k) := by
  have hw1 : prechargeWord (polled hw k) = polled hw k % 2 ^ 28 + 0x90000000 :=
    prechargeWord_eq _ (polled_lt hw k)
  refine ⟨_, prechargeWord (polled hw k),
    initialize_returned hw k fuel _ _ _ _ _ hk hfirst,
    firstControlWrite_returnedTrace hw k _ _ _ _ _, ?_, ?_, ?_, ?_, ?_⟩
  · rw [hw1, precharge_raw]
  · rw [hw1]
    exact mode_of_word _ 1 _ (by decide) (by norm_num)
  · rw [hw1]
    have h := initDone_of_word (polled hw k) 1 (by decide)
    norm_num at h ⊢
    exact h
  · rw [hw1]
    exact enable_of_word _ _ (by norm_num) (by norm_num)
  · intro f hm hi he
    unfold prechargeWord
    rw [control_get_set_ne f .enable _ _ he, control_get_set_ne f .initDone _ _ hi,
      control_get_set_ne f .mode _ _ hm]

/-- C8 on the scenario: the poll ends with `0x40000000` and the first control
write carries `0x90000000`. -/
theorem precharge_write_word_scenario :
    2 < 3 ∧ FirstInitDone scenarioHw 2 ∧
    ∃ m w, HAL_SDRAM_initialize scenarioHw 3 0x80000000 0x07FF 0x00112233 scenarioControl
          scenarioMode = .returned m
      ∧ m.trace.find? Access.isControlWrite = some (Access.writeControl w)
      ∧ w = (polled scenarioHw 2 &&& 0x0FFFFFFF) ||| 0x90000000
      ∧ tSDRAMControlRegister.get .mode w = MODE_REG_PRECHARGE
      ∧ tSDRAMControlRegister.get .initDone w = 0
      ∧ tSDRAMControlRegister.get .enable w = 1
      ∧ ∀ f, f ≠ .mode → f ≠ .initDone → f ≠ .enable →
          tSDRAMControlRegister.get f w = tSDRAMControlRegister.get f (polled scenarioHw 2) :=
  ⟨by decide, scenario_first,
    precharge_write_word scenarioHw 2 3 0x80000000 0x07FF 0x00112233 scenarioControl
      scenarioMode (by decide) scenario_first⟩

/-- C9: when the poll ends with the `k`-th polled value, the control writes of
the run are three intermediate words `w1`, `w2`, `w3` followed by the caller's
word; the three agree on every bit other than bits 28 and 29 and on every field
other than `mode`; each has `enable = 1` and `initDone = 0`; and their `mode`
fields are 1, 2 and 3 in that order. -/
theorem intermediate_writes_frame (hw : Hardware)
    (k fuel sdramDataAddress tREFValue timeConfig controlRegister modeRegister : Nat)
    (hk : k < fuel) (hfirst : FirstInitDone hw k) :
    ∃ m w1 w2 w3,
      HAL_SDRAM_initialize hw fuel sdramDataAddress tREFValue timeConfig controlRegister
          modeRegister = .returned m
      ∧ m.trace.filter Access.isControlWrite
          = [Access.writeControl w1, Access.writeControl w2, Access.writeControl w3,
             Access.writeControl controlRegister]
      ∧ (∀ i, i ≠ 28 → i ≠ 29 →
          Nat.testBit w2 i = Nat.testBit w1 i ∧ Nat.testBit w3 i = Nat.testBit w2 i)
      ∧ (∀ f, f ≠ .mode →
          tSDRAMControlRegister.get f w2 = tSDRAMControlRegister.get f w1
          ∧ tSDRAMControlRegister.get f w3 = tSDRAMControlRegister.get f w2)
      ∧ (tSDRAMControlRegister.get .enable w1 = 1
          ∧ tSDRAMControlRegister.get .enable w2 = 1
          ∧ tSDRAMControlRegister.get .enable w3 = 1)
      ∧ (tSDRAMControlRegister.get .initDone w1 = 0
          ∧ tSDRAMControlRegister.get .initDone w2 = 0
          ∧ tSDRAMControlRegister.get .initDone w3 = 0)
      ∧ (tSDRAMControlRegister.get .mode w1 = MODE_REG_PRECHARGE
          ∧ tSDRAMControlRegister.get .mode w2 = MODE_REG_AUTO_REFRESH
          ∧ tSDRAMControlRegister.get .mode w3 = MODE_REG_AUTO_SET) := by
  have hlt : polled hw k % 2 ^ 28 < 2 ^ 28 := Nat.mod_lt _ (Nat.two_pow_pos _)
  have e1 : prechargeWord (polled hw k) = 2 ^ 28 * 9 + polled hw k % 2 ^ 28 := by
    rw [prechargeWord_eq _ (polled_lt hw k)]
    omega
  have e2 : autoRefreshWord (polled hw k) = 2 ^ 28 * 10 + polled hw k % 2 ^ 28 := by
    rw [autoRefreshWord_eq _ (polled_lt hw k)]
    omega
  have e3 : autoSetWord (polled hw k) = 2 ^ 28 * 11 + polled hw k % 2 ^ 28 := by
    rw [autoSetWord_eq _ (polled_lt hw k)]
    omega
  refine ⟨_, prechargeWord (polled hw k), autoRefreshWord (polled hw k),
    autoSetWord (polled hw k), initialize_returned hw k fuel _ _ _ _ _ hk hfirst,
    controlWrites_returnedTrace hw k _ _ _ _ _, ?_, ?_, ?_, ?_, ?_⟩
  · intro i h28 h29
    rw [e1, e2, e3]
    exact ⟨word_bits_agree _ 10 9 hlt (by decide) i h28 h29,
      word_bits_agree _ 11 10 hlt (by decide) i h28 h29⟩
  · intro f hf
    exact ⟨control_get_set_ne f .mode _ _ hf, control_get_set_ne f .mode _ _ hf⟩
  · rw [prechargeWord_eq _ (polled_lt hw k), autoRefreshWord_eq _ (polled_lt hw k),
      autoSetWord_eq _ (polled_lt hw k)]
    exact ⟨enable_of_word _ _ (by norm_num) (by norm_num),
      enable_of_word _ _ (by norm_num) (by norm_num),
      enable_of_word _ _ (by norm_num) (by norm_num)⟩
  · rw [e1, e2, e3]
    have h1 := initDone_of_word (polled hw k) 1 (by decide)
    have h2 := initDone_of_word (polled hw k) 2 (by decide)
    have h3 := initDone_of_word (polled hw k) 3 (by decide)
    norm_num at h1 h2 h3 ⊢
    refine ⟨?_, ?_, ?_⟩
    · rw [Nat.add_comm]; exact h1
    · rw [Nat.add_comm]; exact h2
    · rw [Nat.add_comm]; exact h3
  · rw [prechargeWord_eq _ (polled_lt hw k), autoRefreshWord_eq _ (polled_lt hw k),
      autoSetWord_eq _ (polled_lt hw k)]
    exact ⟨mode_of_word _ 1 _ (by decide) (by norm_num),
      mode_of_word _ 2 _ (by decide) (by norm_num),
      mode_of_word _ 3 _ (by decide) (by norm_num)⟩

/-- C9 on the scenario: the control writes are `0x90000000`, `0xA0000000`,
`0xB0000000` and the caller's `0x80A10000`. -/
theorem intermediate_writes_frame_scenario :
    2 < 3 ∧ FirstInitDone scenarioHw 2 ∧
    ∃ m w1 w2 w3,
      HAL_SDRAM_initialize scenarioHw 3 0x80000000 0x07FF 0x00112233 scenarioControl
          scenarioMode = .returned m
      ∧ m.trace.filter Access.isControlWrite
          = [Access.writeControl w1, Access.writeControl w2, Access.writeControl w3,
             Access.writeControl 0x80A10000]
      ∧ (∀ i, i ≠ 28 → i ≠ 29 →
          Nat.testBit w2 i = Nat.testBit w1 i ∧ Nat.testBit w3 i = Nat.testBit w2 i)
      ∧ (∀ f, f ≠ .mode →
          tSDRAMControlRegister.get f w2 = tSDRAMControlRegister.get f w1
          ∧ tSDRAMControlRegister.get f w3 = tSDRAMControlRegister.get f w2)
      ∧ (tSDRAMControlRegister.get .enable w1 = 1
          ∧ tSDRAMControlRegister.get .enable w2 = 1
          ∧ tSDRAMControlRegister.get .enable w3 = 1)
      ∧ (tSDRAMControlRegister.get .initDone w1 = 0
          ∧ tSDRAMControlRegister.get .initDone w2 = 0
          ∧ tSDRAMControlRegister.get .initDone w3 = 0)
      ∧ (tSDRAMControlRegister.get .mode w1 = 1
          ∧ tSDRAMControlRegister.get .mode w2 = 2
          ∧ tSDRAMControlRegister.get .mode w3 = 3) :=
  ⟨by decide, scenario_first,
    intermediate_writes_frame scenarioHw 2 3 0x80000000 0x07FF 0x00112233 scenarioControl
      scenarioMode (by decide) scenario_first⟩

/-- C10: for each of the control register, the timing-config register and the
mode register, packing field values that fit their declared widths into the raw
word and unpacking again returns every field unchanged, a value assigned to a
field is read back from it, and an assignment to one field never changes the
value read from another. -/
theorem registers_round_trip :
    RoundTrips tSDRAMControlRegister.decl
    ∧ RoundTrips tSDRAMTimeConfig.decl
    ∧ RoundTrips tSDRAMModeRegister.decl :=
  ⟨roundTrips_of_disjoint _ control_disjoint (by intro f; cases f <;> decide),
   roundTrips_of_disjoint _ time_disjoint (by intro f; cases f <;> decide),
   roundTrips_of_disjoint _ mode_disjoint (by intro f; cases f <;> decide)⟩

/-- C10 on the control word of the scenario: the field values fit, they pack
to `0x80A10000`, and every field is read back unchanged. -/
theorem registers_round_trip_scenario :
    FieldsFit tSDRAMControlRegister.decl scenarioControlFields
    ∧ packFields tSDRAMControlRegister.decl scenarioControlFields 0 = 0x80A10000
    ∧ ∀ f, getField tSDRAMControlRegister.decl f
        (packFields tSDRAMControlRegister.decl scenarioControlFields 0)
          = scenarioControlFields f :=
  ⟨by intro f; cases f <;> decide, by decide,
    registers_round_trip.1.1 scenarioControlFields 0 (by intro f; cases f <;> decide)⟩

/-! ## Layout of the three registers -/

theorem testBit_getBits (off width w i : Nat) :
    Nat.testBit (getBits off width w) i = (decide (i < width) && Nat.testBit w (off + i)) := by
  unfold getBits
  rw [Nat.testBit_mod_two_pow, ← Nat.shiftRight_eq_div_pow, Nat.testBit_shiftRight]

theorem agree_step (off width w1 w2 : Nat) (hlow : w1 % 2 ^ off = w2 % 2 ^ off)
    (hf : getBits off width w1 = getBits off width w2) :
    w1 % 2 ^ (off + width) = w2 % 2 ^ (off + width) := by
  unfold getBits at hf
  rw [Nat.pow_add, Nat.mod_mul, Nat.mod_mul, hlow, hf]

theorem eq_of_low_high (N w1 w2 : Nat) (hlow : w1 % 2 ^ N = w2 % 2 ^ N)
    (hhigh : w1 / 2 ^ N = w2 / 2 ^ N) : w1 = w2 := by
  rw [← Nat.div_add_mod w1 (2 ^ N), ← Nat.div_add_mod w2 (2 ^ N), hlow, hhigh]

theorem control_fields_determine (w1 w2 : Nat) (hhigh : w1 / 2 ^ 32 = w2 / 2 ^ 32)
    (h : ∀ f, getField tSDRAMControlRegister.decl f w1
      = getField tSDRAMControlRegister.decl f w2) : w1 = w2 := by
  have s0 : w1 % 2 ^ 0 = w2 % 2 ^ 0 := by simp [Nat.mod_one]
  have s1 := agree_step 0 4 w1 w2 s0 (h .wBufTimeout)
  have s2 := agree_step 4 12 w1 w2 s1 (h .reserved1)
  have s3 := agree_step 16 2 w1 w2 s2 (h .dqSize)
  have s4 := agree_step 18 1 w1 w2 s3 (h .ap)
  have s5 := agree_step 19 1 w1 w2 s4 (h .iam)
  have s6 := agree_step 20 2 w1 w2 s5 (h .numCols)
  have s7 := agree_step 22 2 w1 w2 s6 (h .numRows)
  have s8 := agree_step 24 1 w1 w2 s7 (h .burstSize)
  have s9 := agree_step 25 2 w1 w2 s8 (h .reserved2)
  have s10 := agree_step 27 1 w1 w2 s9 (h .pp)
  have s11 := agree_step 28 2 w1 w2 s10 (h .mode)
  have s12 := agree_step 30 1 w1 w2 s11 (h .initDone)
  have s13 := agree_step 31 1 w1 w2 s12 (h .enable)
  exact eq_of_low_high 32 w1 w2 s13 hhigh

theorem time_fields_determine (w1 w2 : Nat) (hhigh : w1 / 2 ^ 32 = w2 / 2 ^ 32)
    (h : ∀ f, getField tSDRAMTimeConfig.decl f w1
      = getField tSDRAMTimeConfig.decl f w2) : w1 = w2 := by
  have s0 : w1 % 2 ^ 0 = w2 % 2 ^ 0 := by simp [Nat.mod_one]
  have s1 := agree_step 0 4 w1 w2 s0 (h .RFC_cnt)
  have s2 := agree_step 4 4 w1 w2 s1 (h .RC_cnt)
  have s3 := agree_step 8 4 w1 w2 s2 (h .RAS_cnt)
  have s4 := agree_step 12 3 w1 w2 s3 (h .RCD_cnt)
  have s5 := agree_step 15 3 w1 w2 s4 (h .RP_cnt)
  have s6 := agree_step 18 3 w1 w2 s5 (h .WR_cnt)
  have s7 := agree_step 21 3 w1 w2 s6 (h .RRD_cnt)
  have s8 := agree_step 24 2 w1 w2 s7 (h .cl)
  have s9 := agree_step 26 1 w1 w2 s8 (h .unused1)
  have s10 := agree_step 27 1 w1 w2 s9 (h .btac)
  have s11 := agree_step 28 3 w1 w2 s10 (h .RDV_cnt)
  have s12 := agree_step 31 1 w1 w2 s11 (h .unused2)
  exact eq_of_low_high 32 w1 w2 s12 hhigh

theorem mode_fields_determine (w1 w2 : Nat) (hhigh : w1 / 2 ^ 15 = w2 / 2 ^ 15)
    (h : ∀ f, getField tSDRAMModeRegister.decl f w1
      = getField tSDRAMModeRegister.decl f w2) : w1 = w2 := by
  have s0 : w1 % 2 ^ 0 = w2 % 2 ^ 0 := by simp [Nat.mod_one]
  have s1 := agree_step 0 3 w1 w2 s0 (h .burstLength)
  have s2 := agree_step 3 1 w1 w2 s1 (h .burstType)
  have s3 := agree_step 4 3 w1 w2 s2 (h .latency)
  have s4 := agree_step 7 2 w1 w2 s3 (h .operatingMode)
  have s5 := agree_step 9 1 w1 w2 s4 (h .writeBurstMode)
  have s6 := agree_step 10 5 w1 w2 s5 (h .reserved)
  exact eq_of_low_high 15 w1 w2 s6 hhigh

theorem packFields_high {F : Type} [DecidableEq F] (decl : List (F × Nat)) (N : Nat)
    (hbound : ∀ f : F, declOffset decl f + declWidth decl f ≤ N)
    (vals : F → Nat) (l : List (F × Nat)) (w : Nat) :
    (l.foldl (fun acc d => setField decl d.1 acc (vals d.1)) w) / 2 ^ N = w / 2 ^ N := by
  induction l generalizing w with
  | nil => rfl
  | cons d l ih =>
    rw [List.foldl_cons, ih]
    exact setBits_high _ _ _ _ _ (hbound d.1)

theorem pack_unpack {F : Type} [DecidableEq F] (decl : List (F × Nat)) (N : Nat)
    (hdisj : ∀ f g : F, f ≠ g →
      declOffset decl f + declWidth decl f ≤ declOffset decl g
        ∨ declOffset decl g + declWidth decl g ≤ declOffset decl f)
    (hall : ∀ f : F, f ∈ decl.map Prod.fst)
    (hbound : ∀ f : F, declOffset decl f + declWidth decl f ≤ N)
    (hdet : ∀ w1 w2, w1 / 2 ^ N = w2 / 2 ^ N →
      (∀ f, getField decl f w1 = getField decl f w2) → w1 = w2)
    (w w0 : Nat) (h0 : w0 / 2 ^ N = w / 2 ^ N) :
    packFields decl (fun f => getField decl f w) w0 = w := by
  apply hdet
  · exact (packFields_high decl N hbound (fun f => getField decl f w) decl w0).trans h0
  · intro f
    have h := getField_foldl decl hdisj (fun f => getField decl f w) f decl w0
    rw [if_pos (hall f)] at h
    refine h.trans ?_
    unfold getField getBits
    exact Nat.mod_mod _ _

theorem initDone_clear_iff (v : Nat) :
    tSDRAMControlRegister.get .initDone v = 0 ↔ Nat.testBit v 30 = false := by
  have e : tSDRAMControlRegister.get .initDone v = v / 2 ^ 30 % 2 := by
    simp [tSDRAMControlRegister.get, getField, declOffset, declWidth,
      tSDRAMControlRegister.decl, getBits]
  rw [e, Nat.testBit_to_div_mod]
  have h2 : v / 2 ^ 30 % 2 < 2 := Nat.mod_lt _ (by decide)
  constructor
  · intro h
    rw [h]
    rfl
  · intro h
    by_contra hne
    have h1 : v / 2 ^ 30 % 2 = 1 := by omega
    rw [h1] at h
    exact absurd h (by decide)

theorem firstInitDone_iff_bit (hw : Hardware) (k : Nat) :
    FirstInitDone hw k
      ↔ (Nat.testBit (polled hw k) 30 = true
          ∧ ∀ i, i < k → Nat.testBit (polled hw i) 30 = false) := by
  unfold FirstInitDone initDoneAt
  constructor
  · rintro ⟨h1, h2⟩
    exact ⟨(initDone_bit _ h1).2, fun i hi => (initDone_clear_iff _).mp (h2 i hi)⟩
  · rintro ⟨h1, h2⟩
    refine ⟨fun h0 => ?_, fun i hi => (initDone_clear_iff _).mpr (h2 i hi)⟩
    rw [(initDone_clear_iff _).mp h0] at h1
    exact absurd h1 (by decide)

theorem pollInitDone_step (hw : Hardware) (fuel : Nat) (m : Machine) :
    pollInitDone hw (fuel + 1) m
      = if Nat.testBit (readControl hw m).1 30 = true
        then (some (readControl hw m).1, (readControl hw m).2)
        else pollInitDone hw fuel (readControl hw m).2 := by
  rw [pollInitDone]
  show (if tSDRAMControlRegister.get .initDone (readControl hw m).1 = 0
      then pollInitDone hw fuel (readControl hw m).2
      else (some (readControl hw m).1, (readControl hw m).2)) = _
  by_cases h : Nat.testBit (readControl hw m).1 30 = true
  · have h0 : ¬ tSDRAMControlRegister.get .initDone (readControl hw m).1 = 0 := by
      intro h0
      rw [(initDone_clear_iff _).mp h0] at h
      exact absurd h (by decide)
    rw [if_neg h0, if_pos h]
  · have h0 : tSDRAMControlRegister.get .initDone (readControl hw m).1 = 0 :=
      (initDone_clear_iff _).mpr (by simpa using h)
    rw [if_pos h0, if_neg h]

/-- C11: the fields of the control register occupy, from bit 0 upward,
`wBufTimeout[0..3]`, `reserved1[4..15]`, `dqSize[16..17]`, `ap[18]`, `iam[19]`,
`numCols[20..21]`, `numRows[22..23]`, `burstSize[24]`, `reserved2[25..26]`,
`pp[27]`, `mode[28..29]`, `initDone[30]`, `enable[31]`; the widths sum to 32;
every 32-bit word unpacks and repacks to itself; and the poll loop ends at a
read exactly when bit 30 of the value read is 1, so the routine returns after
`k + 1` control reads exactly when the `k`-th polled value is the first with
bit 30 set. -/
theorem control_register_layout :
    (tSDRAMControlRegister.decl.map
        (fun d => (d.1, declOffset tSDRAMControlRegister.decl d.1,
          declWidth tSDRAMControlRegister.decl d.1))
      = [(.wBufTimeout, 0, 4), (.reserved1, 4, 12), (.dqSize, 16, 2), (.ap, 18, 1),
         (.iam, 19, 1), (.numCols, 20, 2), (.numRows, 22, 2), (.burstSize, 24, 1),
         (.reserved2, 25, 2), (.pp, 27, 1), (.mode, 28, 2), (.initDone, 30, 1),
         (.enable, 31, 1)])
    ∧ (tSDRAMControlRegister.decl.map Prod.snd).sum = 32
    ∧ (∀ f w i, Nat.testBit (tSDRAMControlRegister.get f w) i
        = (decide (i < declWidth tSDRAMControlRegister.decl f)
            && Nat.testBit w (declOffset tSDRAMControlRegister.decl f + i)))
    ∧ (∀ w, w < 2 ^ 32 →
        packFields tSDRAMControlRegister.decl (fun f => tSDRAMControlRegister.get f w) 0 = w)
    ∧ (∀ hw fuel m, pollInitDone hw (fuel + 1) m
        = if Nat.testBit (readControl hw m).1 30 = true
          then (some (readControl hw m).1, (readControl hw m).2)
          else pollInitDone hw fuel (readControl hw m).2)
    ∧ (∀ hw k fuel a r t c mr, k < fuel →
        ((Nat.testBit (polled hw k) 30 = true
            ∧ ∀ i, i < k → Nat.testBit (polled hw i) 30 = false)
          ↔ ∃ m, HAL_SDRAM_initialize hw fuel a r t c mr = .returned m
              ∧ m.controlReads = k + 1)) := by
  refine ⟨by decide, by decide, fun f w i => testBit_getBits _ _ _ _, ?_, pollInitDone_step, ?_⟩
  · intro w hw
    have h0 : (0 : Nat) / 2 ^ 32 = w / 2 ^ 32 := by
      rw [Nat.zero_div, Nat.div_eq_of_lt hw]
    exact pack_unpack tSDRAMControlRegister.decl 32 control_disjoint
      (by intro f; cases f <;> decide) (by intro f; cases f <;> decide)
      control_fields_determine w 0 h0
  · intro hw k fuel a r t c mr hk
    rw [← firstInitDone_iff_bit]
    constructor
    · intro hf
      exact ⟨_, initialize_returned hw k fuel a r t c mr hk hf, rfl⟩
    · rintro ⟨m, hm, hreads⟩
      obtain ⟨j, _, hj, rfl⟩ := returned_inv hw fuel a r t c mr m hm
      have : j = k := by simpa using hreads
      rw [← this]
      exact hj

/-- C12: the fields of the timing-config register occupy `RFC_cnt[0..3]`,
`RC_cnt[4..7]`, `RAS_cnt[8..11]`, `RCD_cnt[12..14]`, `RP_cnt[15..17]`,
`WR_cnt[18..20]`, `RRD_cnt[21..23]`, `cl[24..25]`, `unused1[26]`, `btac[27]`,
`RDV_cnt[28..30]`, `unused2[31]`; the widths sum to 32; and every 32-bit word
unpacks into these fields and repacks to itself. -/
theorem time_config_layout :
    (tSDRAMTimeConfig.decl.map
        (fun d => (d.1, declOffset tSDRAMTimeConfig.decl d.1,
          declWidth tSDRAMTimeConfig.decl d.1))
      = [(.RFC_cnt, 0, 4), (.RC_cnt, 4, 4), (.RAS_cnt, 8, 4), (.RCD_cnt, 12, 3),
         (.RP_cnt, 15, 3), (.WR_cnt, 18, 3), (.RRD_cnt, 21, 3), (.cl, 24, 2),
         (.unused1, 26, 1), (.btac, 27, 1), (.RDV_cnt, 28, 3), (.unused2, 31, 1)])
    ∧ (tSDRAMTimeConfig.decl.map Prod.snd).sum = 32
    ∧ (∀ f w i, Nat.testBit (tSDRAMTimeConfig.get f w) i
        = (decide (i < declWidth tSDRAMTimeConfig.decl f)
            && Nat.testBit w (declOffset tSDRAMTimeConfig.decl f + i)))
    ∧ (∀ w, w < 2 ^ 32 →
        packFields tSDRAMTimeConfig.decl (fun f => tSDRAMTimeConfig.get f w) 0 = w) := by
  refine ⟨by decide, by decide, fun f w i => testBit_getBits _ _ _ _, ?_⟩
  intro w hw
  have h0 : (0 : Nat) / 2 ^ 32 = w / 2 ^ 32 := by
    rw [Nat.zero_div, Nat.div_eq_of_lt hw]
  exact pack_unpack tSDRAMTimeConfig.decl 32 time_disjoint
    (by intro f; cases f <;> decide) (by intro f; cases f <;> decide)
    time_fields_determine w 0 h0

theorem getBits_mod (off width N w : Nat) (h : off + width ≤ N) :
    getBits off width (w % 2 ^ N) = getBits off width w := by
  apply Nat.eq_of_testBit_eq
  intro i
  rw [testBit_getBits, testBit_getBits, Nat.testBit_mod_two_pow]
  by_cases hi : i < width
  · have : off + i < N := by omega
    simp [hi, this]
  · simp [hi]

theorem mode_pack_unpack (w w0 : Nat) (h0 : w0 / 2 ^ 15 = w / 2 ^ 15) :
    packFields tSDRAMModeRegister.decl (fun f => tSDRAMModeRegister.get f w) w0 = w :=
  pack_unpack tSDRAMModeRegister.decl 15 mode_disjoint
    (by intro f; cases f <;> decide) (by intro f; cases f <;> decide)
    mode_fields_determine w w0 h0

theorem mode_pack_unpack_low (w : Nat) :
    packFields tSDRAMModeRegister.decl (fun f => tSDRAMModeRegister.get f w) 0
      = w % 2 ^ 15 := by
  have hf : (fun f => tSDRAMModeRegister.get f w)
      = (fun f => tSDRAMModeRegister.get f (w % 2 ^ 15)) := by
    funext f
    exact (getBits_mod _ _ 15 w (by cases f <;> decide)).symm
  rw [hf]
  apply mode_pack_unpack
  rw [Nat.zero_div, Nat.div_eq_of_lt (Nat.mod_lt _ (Nat.two_pow_pos _))]

/-- C13, as stated, fails: the declared widths of the mode register sum to 15,
and the 16-bit raw value `0x8000` has every named field equal to that of the
raw value 0, repacks to 0, and gives a different mode-set address than 0. -/
theorem mode_register_bit15_unnamed :
    0x8000 < 2 ^ 16
    ∧ (tSDRAMModeRegister.decl.map Prod.snd).sum = 15
    ∧ (∀ f, tSDRAMModeRegister.get f 0x8000 = tSDRAMModeRegister.get f 0)
    ∧ packFields tSDRAMModeRegister.decl (fun f => tSDRAMModeRegister.get f 0x8000) 0 = 0
    ∧ packFields tSDRAMModeRegister.decl (fun f => tSDRAMModeRegister.get f 0x8000) 0
        ≠ 0x8000
    ∧ msrValue 0x80000000 0x8000 ≠ msrValue 0x80000000 0 := by
  refine ⟨by decide, by decide, by intro f; cases f <;> decide, ?_, ?_, by decide⟩
  · rw [mode_pack_unpack_low]
    decide
  · rw [mode_pack_unpack_low]
    decide

/-- C13, amended: the fields of the mode register occupy `burstLength[0..2]`,
`burstType[3]`, `latency[4..6]`, `operatingMode[7..8]`, `writeBurstMode[9]`,
`reserved[10..14]`, 15 bits in all, and bit 15 of the 16-bit word belongs to no
field.  Unpacking any raw value and repacking from zero yields its low 15
bits, so every raw value below `2 ^ 15` repacks to itself; two raw values with
the same fields and the same bits from 15 upward are equal, and the routine
then behaves the same on both. -/
theorem mode_register_layout :
    (tSDRAMModeRegister.decl.map
        (fun d => (d.1, declOffset tSDRAMModeRegister.decl d.1,
          declWidth tSDRAMModeRegister.decl d.1))
      = [(.burstLength, 0, 3), (.burstType, 3, 1), (.latency, 4, 3),
         (.operatingMode, 7, 2), (.writeBurstMode, 9, 1), (.reserved, 10, 5)])
    ∧ (tSDRAMModeRegister.decl.map Prod.snd).sum = 15
    ∧ (∀ f w i, Nat.testBit (tSDRAMModeRegister.get f w) i
        = (decide (i < declWidth tSDRAMModeRegister.decl f)
            && Nat.testBit w (declOffset tSDRAMModeRegister.decl f + i)))
    ∧ (∀ w, packFields tSDRAMModeRegister.decl (fun f => tSDRAMModeRegister.get f w) 0
        = w % 2 ^ 15)
    ∧ (∀ w, w < 2 ^ 15 →
        packFields tSDRAMModeRegister.decl (fun f => tSDRAMModeRegister.get f w) 0 = w)
    ∧ (∀ w1 w2, w1 / 2 ^ 15 = w2 / 2 ^ 15 →
        (∀ f, tSDRAMModeRegister.get f w1 = tSDRAMModeRegister.get f w2) →
        w1 = w2
        ∧ ∀ hw fuel a r t c, HAL_SDRAM_initialize hw fuel a r t c w1
            = HAL_SDRAM_initialize hw fuel a r t c w2) := by
  refine ⟨by decide, by decide, fun f w i => testBit_getBits _ _ _ _, mode_pack_unpack_low,
    ?_, ?_⟩
  · intro w hw
    rw [mode_pack_unpack_low, Nat.mod_eq_of_lt hw]
  · intro w1 w2 hhigh hf
    have h := mode_fields_determine w1 w2 hhigh hf
    exact ⟨h, fun hw fuel a r t c => by rw [h]⟩

/-- C14: on the scenario the run returns, and ten of its nineteen accesses,
exactly the reads of the data region, are not made through a
`volatile`-qualified lvalue; the nine register accesses are. -/
theorem data_reads_not_volatile :
    ∃ m, HAL_SDRAM_initialize scenarioHw 3 0x80000000 0x07FF 0x00112233 scenarioControl
          scenarioMode = .returned m
      ∧ m.trace.length = 19
      ∧ m.trace.filter (fun a => !a.isVolatile) = m.trace.filter Access.isDataRead
      ∧ (m.trace.filter (fun a => !a.isVolatile)).length = 10
      ∧ (m.trace.filter Access.isVolatile).length = 9 :=
  ⟨_, initialize_returned scenarioHw 2 3 _ _ _ _ _ (by decide) scenario_first,
    by decide, by decide, by decide, by decide⟩

theorem GET_HCLK_T_PERIOD_eq (t clkPeriod : Int) :
    GET_HCLK_T_PERIOD t clkPeriod = Int.tdiv t clkPeriod :=
  Int.ceil_intCast _

/-- C16: with the `int` operands `t = 7` and `clkPeriod = 2` the macro yields
3, and 3 clock periods do not cover 7; the least `n` with `n * 2 ≥ 7` is 4. -/
theorem GET_HCLK_T_PERIOD_rounds_down :
    GET_HCLK_T_PERIOD 7 2 = 3
    ∧ GET_HCLK_T_PERIOD 7 2 * 2 < 7
    ∧ (7 : Int) ≤ 4 * 2
    ∧ ∀ n : Int, 7 ≤ n * 2 → 4 ≤ n := by
  refine ⟨?_, ?_, by decide, fun n hn => by omega⟩
  · rw [GET_HCLK_T_PERIOD_eq]
    decide
  · rw [GET_HCLK_T_PERIOD_eq]
    decide

theorem polled_congr (hw1 hw2 : Hardware) (h : ∀ i, hw1.control i = hw2.control i) (i : Nat) :
    polled hw1 i = polled hw2 i := by
  unfold polled
  rw [h]

theorem request_returnedTrace (hw1 hw2 : Hardware) (h : ∀ i, hw1.control i = hw2.control i)
    (k a r t c mr : Nat) :
    (returnedTrace hw1 k a r t c mr).map Access.request
      = (returnedTrace hw2 k a r t c mr).map Access.request := by
  simp [returnedTrace, pollReads, dataReadsFrom, Access.request, List.map_map,
    Function.comp_def, polled_congr hw1 hw2 h]

theorem controlWrites_polling (hw : Hardware) (n r t : Nat) :
    ([Access.writeTimeConfig t, Access.writeTimeRef r] ++ pollReads hw 0 n).filter
      Access.isControlWrite = [] := by
  rw [List.filter_eq_nil_iff]
  intro x hx
  rcases head_kind hw n r t x hx with rfl | rfl | ⟨v, rfl⟩ <;> simp [Access.isControlWrite]

theorem returnedTrace_dropLast (hw : Hardware) (k a r t c mr : Nat) :
    (returnedTrace hw k a r t c mr).dropLast
      = [Access.writeTimeConfig t, Access.writeTimeRef r]
        ++ pollReads hw 0 (k + 1)
        ++ [Access.writeControl (prechargeWord (polled hw k)),
            Access.readData a (hw.data 0 % 2 ^ 32),
            Access.writeControl (autoRefreshWord (polled hw k))]
        ++ dataReadsFrom hw a 1 8
        ++ [Access.writeControl (autoSetWord (polled hw k)),
            Access.readData (msrValue a mr) (hw.data 9 % 2 ^ 32)] := by
  have hsplit : returnedTrace hw k a r t c mr
      = ([Access.writeTimeConfig t, Access.writeTimeRef r]
        ++ pollReads hw 0 (k + 1)
        ++ [Access.writeControl (prechargeWord (polled hw k)),
            Access.readData a (hw.data 0 % 2 ^ 32),
            Access.writeControl (autoRefreshWord (polled hw k))]
        ++ dataReadsFrom hw a 1 8
        ++ [Access.writeControl (autoSetWord (polled hw k)),
            Access.readData (msrValue a mr) (hw.data 9 % 2 ^ 32)])
        ++ [Access.writeControl c] := by
    simp [returnedTrace]
  rw [hsplit, List.dropLast_concat]

theorem returnedTrace_getLast (hw : Hardware) (k a r t c mr : Nat) :
    (returnedTrace hw k a r t c mr).getLast? = some (Access.writeControl c) := by
  unfold returnedTrace
  rw [List.getLast?_append_of_ne_nil _ (List.cons_ne_nil _ _)]
  rfl

theorem polling_inv (hw : Hardware) (fuel a r t c mr : Nat) (m : Machine)
    (h : HAL_SDRAM_initialize hw fuel a r t c mr = .polling m) :
    (∀ i, i < fuel → initDoneAt hw i = 0)
      ∧ m = ⟨[Access.writeTimeConfig t, Access.writeTimeRef r] ++ pollReads hw 0 fuel,
          fuel, 0⟩ := by
  rcases firstInitDone_or_clear hw fuel with ⟨k, hk, hf⟩ | hclear
  · rw [initialize_returned hw k fuel a r t c mr hk hf] at h
    exact Outcome.noConfusion h
  · rw [initialize_polling hw fuel a r t c mr hclear] at h
    exact ⟨hclear, (Outcome.polling.inj h).symm⟩

/-- C15: (a) two runs against controllers that answer the control reads alike,
whatever their data-region reads answer, either both return or both are still
polling, and make the same accesses with the same addresses and written values
in the same order; (b) the control writes before the last one are the same for
any two runs against the same controller, whatever arguments the caller passes,
and in a returned run they are the three words composed from the polled value
alone, followed by the caller's `controlRegister`; (c) two runs that differ
only in the caller's `controlRegister` make the same accesses up to the last
one: if one returns so does the other, after the same numbers of reads, their
traces without the last access are equal, and the last access of each is the
write of its own `controlRegister`; if one is still polling the other ends in
the same state. -/
theorem initialize_noninterference :
    (∀ (hw1 hw2 : Hardware) (fuel a r t c mr : Nat),
        (∀ i, hw1.control i = hw2.control i) →
        ( HAL_SDRAM_initialize hw1 fuel a r t c mr).trace.map Access.request
          = ( HAL_SDRAM_initialize hw2 fuel a r t c mr).trace.map Access.request
        ∧ ((∃ m, HAL_SDRAM_initialize hw1 fuel a r t c mr = .returned m)
            ↔ ∃ m, HAL_SDRAM_initialize hw2 fuel a r t c mr = .returned m))
    ∧ (∀ (hw : Hardware) (fuel a1 r1 t1 c1 mr1 a2 r2 t2 c2 mr2 : Nat),
        (( HAL_SDRAM_initialize hw fuel a1 r1 t1 c1 mr1).trace.filter
            Access.isControlWrite).dropLast
          = (( HAL_SDRAM_initialize hw fuel a2 r2 t2 c2 mr2).trace.filter
            Access.isControlWrite).dropLast)
    ∧ (∀ (hw : Hardware) (k fuel a r t c mr : Nat), k < fuel → FirstInitDone hw k →
        ( HAL_SDRAM_initialize hw fuel a r t c mr).trace.filter Access.isControlWrite
          = [Access.writeControl (prechargeWord (polled hw k)),
             Access.writeControl (autoRefreshWord (polled hw k)),
             Access.writeControl (autoSetWord (polled hw k)),
             Access.writeControl c])
    ∧ (∀ (hw : Hardware) (fuel a r t mr c1 c2 : Nat) (m1 : Machine),
        HAL_SDRAM_initialize hw fuel a r t c1 mr = .returned m1 →
        ∃ m2, HAL_SDRAM_initialize hw fuel a r t c2 mr = .returned m2
          ∧ m1.trace.dropLast = m2.trace.dropLast
          ∧ m1.trace.getLast? = some (Access.writeControl c1)
          ∧ m2.trace.getLast? = some (Access.writeControl c2)
          ∧ m1.controlReads = m2.controlReads
          ∧ m1.dataReads = m2.dataReads)
    ∧ (∀ (hw : Hardware) (fuel a r t mr c1 c2 : Nat) (m1 : Machine),
        HAL_SDRAM_initialize hw fuel a r t c1 mr = .polling m1 →
        HAL_SDRAM_initialize hw fuel a r t c2 mr = .polling m1) := by
  refine ⟨?_, ?_, ?_, ?_, ?_⟩
  · intro hw1 hw2 fuel a r t c mr h
    have hinit : ∀ i, initDoneAt hw1 i = initDoneAt hw2 i := by
      intro i
      unfold initDoneAt
      rw [polled_congr hw1 hw2 h]
    rcases firstInitDone_or_clear hw1 fuel with ⟨k, hk, hf⟩ | hclear
    · have hf2 : FirstInitDone hw2 k :=
        ⟨by rw [← hinit]; exact hf.1, fun i hi => by rw [← hinit]; exact hf.2 i hi⟩
      rw [initialize_returned hw1 k fuel a r t c mr hk hf,
        initialize_returned hw2 k fuel a r t c mr hk hf2]
      exact ⟨request_returnedTrace hw1 hw2 h k a r t c mr,
        ⟨fun _ => ⟨_, rfl⟩, fun _ => ⟨_, rfl⟩⟩⟩
    · have hclear2 : ∀ i, i < fuel → initDoneAt hw2 i = 0 :=
        fun i hi => by rw [← hinit]; exact hclear i hi
      rw [initialize_polling hw1 fuel a r t c mr hclear,
        initialize_polling hw2 fuel a r t c mr hclear2]
      refine ⟨?_, ⟨?_, ?_⟩⟩
      · simp [Outcome.trace, Outcome.machine, pollReads, Access.request, List.map_map,
          Function.comp_def, polled_congr hw1 hw2 h]
      · rintro ⟨m, hm⟩
        exact Outcome.noConfusion hm
      · rintro ⟨m, hm⟩
        exact Outcome.noConfusion hm
  · intro hw fuel a1 r1 t1 c1 mr1 a2 r2 t2 c2 mr2
    rcases firstInitDone_or_clear hw fuel with ⟨k, hk, hf⟩ | hclear
    · rw [initialize_returned hw k fuel a1 r1 t1 c1 mr1 hk hf,
        initialize_returned hw k fuel a2 r2 t2 c2 mr2 hk hf]
      simp only [Outcome.trace, Outcome.machine, controlWrites_returnedTrace]
      rfl
    · rw [initialize_polling hw fuel a1 r1 t1 c1 mr1 hclear,
        initialize_polling hw fuel a2 r2 t2 c2 mr2 hclear]
      simp only [Outcome.trace, Outcome.machine, controlWrites_polling]
  · intro hw k fuel a r t c mr hk hf
    rw [initialize_returned hw k fuel a r t c mr hk hf]
    exact controlWrites_returnedTrace hw k a r t c mr
  · intro hw fuel a r t mr c1 c2 m1 h1
    obtain ⟨k, hk, hf, rfl⟩ := returned_inv hw fuel a r t c1 mr m1 h1
    refine ⟨_, initialize_returned hw k fuel a r t c2 mr hk hf, ?_,
      returnedTrace_getLast hw k a r t c1 mr, returnedTrace_getLast hw k a r t c2 mr,
      rfl, rfl⟩
    show (returnedTrace hw k a r t c1 mr).dropLast = (returnedTrace hw k a r t c2 mr).dropLast
    rw [returnedTrace_dropLast, returnedTrace_dropLast]
  · intro hw fuel a r t mr c1 c2 m1 h1
    obtain ⟨hclear, rfl⟩ := polling_inv hw fuel a r t c1 mr m1 h1
    exact initialize_polling hw fuel a r t c2 mr hclear

/-- C15 on the scenario, for two runs that differ only in `controlRegister`
(`0x80A10000` and `0`): both return, with the same trace up to the last access. -/
theorem initialize_noninterference_scenario :
    ∃ m1 m2,
      HAL_SDRAM_initialize scenarioHw 3 0x80000000 0x07FF 0x00112233 scenarioControl
          scenarioMode = .returned m1
      ∧ HAL_SDRAM_initialize scenarioHw 3 0x80000000 0x07FF 0x00112233 0
          scenarioMode = .returned m2
      ∧ m1.trace.dropLast = m2.trace.dropLast
      ∧ m1.trace.getLast? = some (Access.writeControl scenarioControl)
      ∧ m2.trace.getLast? = some (Access.writeControl 0)
      ∧ m1.controlReads = m2.controlReads
      ∧ m1.dataReads = m2.dataReads :=
  (initialize_noninterference.2.2.2.1 scenarioHw 3 0x80000000 0x07FF 0x00112233 scenarioMode
      scenarioControl 0 _
      (initialize_returned scenarioHw 2 3 _ _ _ _ _ (by decide) scenario_first)).elim
    (fun m2 h => ⟨_, m2,
      initialize_returned scenarioHw 2 3 _ _ _ _ _ (by decide) scenario_first, h⟩)

end HAL_SDRAM
